import Mathlib

/-!
Verification of the nctools DXF reader/writer (src/nctools/dxf.py) and the
bounding-box utility (src/nctools/bbox.py).

Embedding conventions:
* A DXF file is read by Python as a list of stripped text lines.  We model a
  line as a token `Tok α`: `.s v` is a line whose text is not numeric, `.num v`
  is a line holding a decimal number (Python `float(...)` succeeds, `int(...)`
  fails), `.int n` is a line holding an integer literal (both `float` and
  `int` succeed).  Python float values are idealized as elements of a linear
  ordered field `α` (exact arithmetic); concrete evaluations use `ℚ`, and the
  angle claims use `ℝ`.
* `lines.index(x, i)`, which raises `ValueError` when absent, becomes
  `indexFrom : ... → Option Nat`; `lines[j]`, which raises `IndexError` out of
  range, becomes a `getElem?` access.  Either exception aborts the whole Python
  decode; the model returns `Except DxfErr`, naming the error kinds of the
  specification by program point: section location failures are
  `.malformedSection`, entity field lookup/parse failures are `.missingField`,
  and the (spec-modelled) zero-chord bulge failure is `.degenerateGeometry`.
* Angles: the Python code stores radians (`math.radians(deg) = deg*π/180`) and
  normalizes `a2 += 2*math.pi` when `a2 < a1`.  Since `radians` is a strictly
  monotone bijection with `radians (d+360) = radians d + 2π`, the decoder here
  stores the degree values, normalizes with `normEnd` (`+360` when smaller),
  and the radian view is recovered with `radOfDeg`.  A full circle is stored
  as degrees `(0, 360)`, i.e. radians `(0, 2π)`.
-/

/-- One text line of a DXF file, as the reader sees it after `strip()`.
`.s` holds non-numeric text, `.num` a decimal literal, `.int` an integer
literal (see the module docstring). -/
inductive Tok (α : Type) where
  | s (v : String)
  | num (v : α)
  | int (n : Int)
deriving DecidableEq

/-- Python `ln == x` for a searched keyword or group code `x`: only a text
line can equal the searched string. -/
def tokIsStr {α : Type} (t : Tok α) (x : String) : Bool :=
  match t with
  | .s v => v == x
  | _ => false

/-- Position of the first token matching string `x`, if any. -/
def findTok {α : Type} (x : String) : List (Tok α) → Option Nat
  | [] => none
  | t :: ts => if tokIsStr t x then some 0 else (findTok x ts).map (· + 1)

/-- Python `lines.index(x, i)`: the least position `j ≥ i` with
`lines[j] == x`, or `none` (Python raises `ValueError`). -/
def indexFrom {α : Type} (lines : List (Tok α)) (x : String) (i : Nat) : Option Nat :=
  (findTok x (lines.drop i)).map (· + i)

/-- Python positions of every occurrence of keyword `kw`
(`[num for num, ln in enumerate(lines) if ln == kw]`), counting from `n`. -/
def markersFrom {α : Type} (kw : String) : List (Tok α) → Nat → List Nat
  | [], _ => []
  | t :: ts, n =>
    if tokIsStr t kw then n :: markersFrom kw ts (n + 1) else markersFrom kw ts (n + 1)

/-- All positions of keyword `kw` in the token list. -/
def markersOf {α : Type} (lines : List (Tok α)) (kw : String) : List Nat :=
  markersFrom kw lines 0

/-- Python `float(lines[j])` given the token: succeeds on numeric lines
(also on integer literals), fails (`ValueError`) on text. -/
def getNumTok {α : Type} [IntCast α] : Tok α → Option α
  | .num v => some v
  | .int n => some (n : α)
  | .s _ => none

/-- Python `float(lines[j])`: `none` on index out of range (`IndexError`) or
non-numeric text (`ValueError`). -/
def numAt {α : Type} [IntCast α] (lines : List (Tok α)) (j : Nat) : Option α :=
  match lines[j]? with
  | some t => getNumTok t
  | none => none

/-- The text of a layer-value line (`layer = lines[num]`).  The model keeps
the text of `.s` lines and of integer lines; a decimal line used as a layer
name is abstracted to the empty string (no claim exercises that case). -/
def layerVal {α : Type} : Tok α → String
  | .s v => v
  | .int n => toString n
  | .num _ => ""

/-- Python `layer = lines[j]`, `none` when out of range (`IndexError`). -/
def layerAt {α : Type} (lines : List (Tok α)) (j : Nat) : Option String :=
  (lines[j]?).map layerVal

/-- Decode failures, named per the specification's error taxonomy by the
program point at which the Python code raises. -/
inductive DxfErr where
  | malformedSection
  | missingField
  | degenerateGeometry
deriving DecidableEq

/-- A decoded entity.  `.line` and `.arc` mirror `ent.Line`/`ent.Arc`
construction in `_get_lines`/`_get_arcs`/`_get_circles` (arc angles stored in
degrees, see module docstring).  `.parc` records a polyline bulge segment,
i.e. the `ent.Arc` that `_get_polylines` builds through `ent.arcdata(sp, ep,
4*atan(bulge))` from the missing `ent.py`, by its defining data
(start, end, bulge). -/
inductive RawEnt (α : Type) where
  | line (x1 y1 x2 y2 : α) (index : Nat) (layer : String)
  | arc (cx cy r d1 d2 : α) (index : Nat) (layer : String)
  | parc (x1 y1 x2 y2 bulge : α) (index : Nat) (layer : String)
deriving DecidableEq

/-- The source-stream position of the entity's start marker (the `index`
argument every constructor call in dxf.py passes). -/
def RawEnt.index {α : Type} : RawEnt α → Nat
  | .line _ _ _ _ i _ => i
  | .arc _ _ _ _ _ i _ => i
  | .parc _ _ _ _ _ i _ => i

/-- The layer field of a decoded entity. -/
def RawEnt.layer {α : Type} : RawEnt α → String
  | .line _ _ _ _ _ l => l
  | .arc _ _ _ _ _ _ l => l
  | .parc _ _ _ _ _ _ l => l

/-- Effectful map over a list: Python's for-loop appending to `rv`, where the
first raised exception aborts the whole decode. -/
def exMapM {β γ : Type} (f : β → Except DxfErr γ) : List β → Except DxfErr (List γ)
  | [] => .ok []
  | b :: bs =>
    match f b with
    | .error e => .error e
    | .ok c =>
      match exMapM f bs with
      | .error e => .error e
      | .ok cs => .ok (c :: cs)

/-- One iteration of the `_get_lines` loop: from a `LINE` marker at `i`,
sequentially locate group codes 8, 10, 20, 11, 21, each search starting at
the previous value position, each running to the end of the slice. -/
def lineAt {α : Type} [IntCast α] (lines : List (Tok α)) (i : Nat) :
    Except DxfErr (RawEnt α) :=
  match indexFrom lines "8" i with
  | none => .error .missingField
  | some p8 =>
  match layerAt lines (p8 + 1) with
  | none => .error .missingField
  | some lay =>
  match indexFrom lines "10" (p8 + 1) with
  | none => .error .missingField
  | some pa =>
  match numAt lines (pa + 1) with
  | none => .error .missingField
  | some x1 =>
  match indexFrom lines "20" (pa + 1) with
  | none => .error .missingField
  | some pb =>
  match numAt lines (pb + 1) with
  | none => .error .missingField
  | some y1 =>
  match indexFrom lines "11" (pb + 1) with
  | none => .error .missingField
  | some pc =>
  match numAt lines (pc + 1) with
  | none => .error .missingField
  | some x2 =>
  match indexFrom lines "21" (pc + 1) with
  | none => .error .missingField
  | some pd =>
  match numAt lines (pd + 1) with
  | none => .error .missingField
  | some y2 => .ok (.line x1 y1 x2 y2 i lay)

/-- Python `_get_lines`. -/
def _get_lines {α : Type} [IntCast α] (lines : List (Tok α)) :
    Except DxfErr (List (RawEnt α)) :=
  exMapM (lineAt lines) (markersOf lines "LINE")

/-- End-angle normalization of `_get_arcs` (`if a2 < a1: a2 += 2*math.pi`),
on the degree values: adding a full turn is `+360` degrees. -/
def normEnd {α : Type} [LinearOrderedField α] (a1 a2 : α) : α :=
  if a2 < a1 then a2 + 360 else a2

/-- One iteration of the `_get_arcs` loop: locate 8, 10, 20, 40, 50, 51 and
normalize the end angle. -/
def arcAt {α : Type} [LinearOrderedField α] (lines : List (Tok α)) (i : Nat) :
    Except DxfErr (RawEnt α) :=
  match indexFrom lines "8" i with
  | none => .error .missingField
  | some p8 =>
  match layerAt lines (p8 + 1) with
  | none => .error .missingField
  | some lay =>
  match indexFrom lines "10" (p8 + 1) with
  | none => .error .missingField
  | some pa =>
  match numAt lines (pa + 1) with
  | none => .error .missingField
  | some cx =>
  match indexFrom lines "20" (pa + 1) with
  | none => .error .missingField
  | some pb =>
  match numAt lines (pb + 1) with
  | none => .error .missingField
  | some cy =>
  match indexFrom lines "40" (pb + 1) with
  | none => .error .missingField
  | some pc =>
  match numAt lines (pc + 1) with
  | none => .error .missingField
  | some rr =>
  match indexFrom lines "50" (pc + 1) with
  | none => .error .missingField
  | some pd =>
  match numAt lines (pd + 1) with
  | none => .error .missingField
  | some d1 =>
  match indexFrom lines "51" (pd + 1) with
  | none => .error .missingField
  | some pe =>
  match numAt lines (pe + 1) with
  | none => .error .missingField
  | some d2 => .ok (.arc cx cy rr d1 (normEnd d1 d2) i lay)

/-- Python `_get_arcs`. -/
def _get_arcs {α : Type} [LinearOrderedField α] (lines : List (Tok α)) :
    Except DxfErr (List (RawEnt α)) :=
  exMapM (arcAt lines) (markersOf lines "ARC")

/-- One iteration of the `_get_circles` loop: locate 8, 10, 20, 40; emit an
arc with angles 0 and 2π radians, i.e. degrees 0 and 360 in this model. -/
def circleAt {α : Type} [LinearOrderedField α] (lines : List (Tok α)) (i : Nat) :
    Except DxfErr (RawEnt α) :=
  match indexFrom lines "8" i with
  | none => .error .missingField
  | some p8 =>
  match layerAt lines (p8 + 1) with
  | none => .error .missingField
  | some lay =>
  match indexFrom lines "10" (p8 + 1) with
  | none => .error .missingField
  | some pa =>
  match numAt lines (pa + 1) with
  | none => .error .missingField
  | some cx =>
  match indexFrom lines "20" (pa + 1) with
  | none => .error .missingField
  | some pb =>
  match numAt lines (pb + 1) with
  | none => .error .missingField
  | some cy =>
  match indexFrom lines "40" (pb + 1) with
  | none => .error .missingField
  | some pc =>
  match numAt lines (pc + 1) with
  | none => .error .missingField
  | some rr => .ok (.arc cx cy rr 0 360 i lay)

/-- Python `_get_circles`. -/
def _get_circles {α : Type} [LinearOrderedField α] (lines : List (Tok α)) :
    Except DxfErr (List (RawEnt α)) :=
  exMapM (circleAt lines) (markersOf lines "CIRCLE")

/-- The closed-flag lookup of `_get_polylines`: search 70 from the layer value
position; `ValueError` (code absent, or value not an integer literal) is
caught and treated as open; `IndexError` (70 is the last line) is not caught
and aborts. -/
def closedFlag {α : Type} (lines : List (Tok α)) (start : Nat) :
    Except DxfErr Bool :=
  match indexFrom lines "70" start with
  | none => .ok false
  | some p70 =>
    match lines[p70 + 1]? with
    | none => .error .missingField
    | some (.int n) => .ok (n % 2 != 0)
    | some _ => .ok false

/-- One vertex of the `_get_polylines` vertex loop, for the window `(j, k)`:
extract the point from codes 10 and 20 (failures abort), then the optional
bulge from code 42, honored only when its value position falls strictly
before `k`; any failure there is caught and the bulge is 0.  The Python code
stores the included angle `atan(bulge)*4`; the model stores the bulge itself
(the two are zero together, which is the only property used downstream
before `ent.arcdata`). -/
def vertexAt {α : Type} [LinearOrderedField α] (lines : List (Tok α)) (jk : Nat × Nat) :
    Except DxfErr (α × α × α) :=
  match indexFrom lines "10" jk.1 with
  | none => .error .missingField
  | some pa =>
  match numAt lines (pa + 1) with
  | none => .error .missingField
  | some x =>
  match indexFrom lines "20" (pa + 1) with
  | none => .error .missingField
  | some pb =>
  match numAt lines (pb + 1) with
  | none => .error .missingField
  | some y =>
    let b : α :=
      match indexFrom lines "42" (pb + 1) with
      | none => 0
      | some pc =>
        if pc + 1 < jk.2 then
          match numAt lines (pc + 1) with
          | some v => v
          | none => 0
        else 0
    .ok (x, y, b)

/-- One consecutive point pair of a polyline: a `Line` for bulge 0, otherwise
the arc the bulge reconstructor returns.  Modelled from the spec: the zero
length chord check of `ent.arcdata` (missing `ent.py`) — a zero-length chord
with nonzero bulge is a decode error (`DegenerateGeometry`). -/
def segOf {α : Type} [LinearOrderedField α] (i : Nat) (lay : String)
    (t : ((α × α) × (α × α)) × α) : Except DxfErr (RawEnt α) :=
  if t.2 = 0 then .ok (.line t.1.1.1 t.1.1.2 t.1.2.1 t.1.2.2 i lay)
  else if t.1.1 = t.1.2 then .error .degenerateGeometry
  else .ok (.parc t.1.1.1 t.1.1.2 t.1.2.1 t.1.2.2 t.2 i lay)

/-- The tail of the `_get_polylines` loop body: `pnts`/`angles` from the
vertex data, the closing point append (`pnts[0]` of no points is an
`IndexError`), and one segment per consecutive point pair
(`zip(pnts, pnts[1:], angles)` truncates to the shortest list). -/
def polySegsOf {α : Type} [LinearOrderedField α] (i : Nat) (lay : String)
    (closed : Bool) (vd : List (α × α × α)) : Except DxfErr (List (RawEnt α)) :=
  match (if closed then
           match vd.map (fun v => (v.1, v.2.1)) with
           | [] => Except.error DxfErr.missingField
           | p :: _ => Except.ok (vd.map (fun v => (v.1, v.2.1)) ++ [p])
         else Except.ok (vd.map (fun v => (v.1, v.2.1)))) with
  | .error e => .error e
  | .ok pts =>
    exMapM (segOf i lay) ((pts.zip pts.tail).zip (vd.map (fun v => v.2.2)))

/-- One iteration of the `_get_polylines` loop at a `POLYLINE` marker `i`:
layer from 8; closed flag from 70; `end` is the first `SEQEND` at or after
`i`; the vertex list `vi` is every `VERTEX` position in the whole slice
(exactly as the Python list comprehension builds it), each paired with the
next one, the last with `end`; if closed, the first point is appended again;
one segment per consecutive point pair. -/
def polyAt {α : Type} [LinearOrderedField α] (lines : List (Tok α)) (i : Nat) :
    Except DxfErr (List (RawEnt α)) :=
  match indexFrom lines "8" i with
  | none => .error .missingField
  | some p8 =>
  match layerAt lines (p8 + 1) with
  | none => .error .missingField
  | some lay =>
  match closedFlag lines (p8 + 1) with
  | .error e => .error e
  | .ok closed =>
  match indexFrom lines "SEQEND" i with
  | none => .error .missingField
  | some en =>
    match exMapM (vertexAt lines)
        ((markersOf lines "VERTEX").zip ((markersOf lines "VERTEX").tail ++ [en])) with
    | .error e => .error e
    | .ok vd => polySegsOf i lay closed vd

/-- Python `_get_polylines`. -/
def _get_polylines {α : Type} [LinearOrderedField α] (lines : List (Tok α)) :
    Except DxfErr (List (RawEnt α)) :=
  match exMapM (polyAt lines) (markersOf lines "POLYLINE") with
  | .error e => .error e
  | .ok ls => .ok ls.flatten

/-- The sort key relation of `entities.sort(key=lambda x: x.index)`. -/
def entLe {α : Type} (a b : RawEnt α) : Prop :=
  RawEnt.index a ≤ RawEnt.index b

instance {α : Type} : DecidableRel (entLe (α := α)) :=
  fun a b => inferInstanceAs (Decidable (RawEnt.index a ≤ RawEnt.index b))

instance {α : Type} : IsTotal (RawEnt α) entLe :=
  ⟨fun a b => Nat.le_total (RawEnt.index a) (RawEnt.index b)⟩

instance {α : Type} : IsTrans (RawEnt α) entLe :=
  ⟨fun _ _ _ h1 h2 => Nat.le_trans h1 h2⟩

/-- Section extraction of `reader`: `soe = data.index('ENTITIES')+1`,
`eoe = data.index('ENDSEC', soe)`, slice `data[soe:eoe]`.  A missing marker
is the specification's `MalformedSection` error. -/
def entSlice {α : Type} (data : List (Tok α)) : Except DxfErr (List (Tok α)) :=
  match indexFrom data "ENTITIES" 0 with
  | none => .error .malformedSection
  | some s0 =>
  match indexFrom data "ENDSEC" (s0 + 1) with
  | none => .error .malformedSection
  | some e0 => .ok ((data.take e0).drop (s0 + 1))

/-- The entity scans and final sort of `reader`, on the extracted slice:
lines, arcs, circles, polylines, concatenated and sorted ascending by
`index` (Python's stable sort, modelled by stable insertion sort). -/
def decodeSlice {α : Type} [LinearOrderedField α] (lines : List (Tok α)) :
    Except DxfErr (List (RawEnt α)) :=
  match _get_lines lines with
  | .error e => .error e
  | .ok a =>
  match _get_arcs lines with
  | .error e => .error e
  | .ok b =>
  match _get_circles lines with
  | .error e => .error e
  | .ok c =>
  match _get_polylines lines with
  | .error e => .error e
  | .ok d => .ok (List.insertionSort entLe (a ++ b ++ c ++ d))

/-- Python `reader` on the stripped token stream. -/
def decode {α : Type} [LinearOrderedField α] (data : List (Tok α)) :
    Except DxfErr (List (RawEnt α)) :=
  match entSlice data with
  | .error e => .error e
  | .ok lines => decodeSlice lines

/-- Python whitespace, as stripped by `str.strip()`. -/
def isPyWS (c : Char) : Bool :=
  c == ' ' || c == '\t' || c == '\n' || c == '\r' || c == '\x0b' || c == '\x0c'

/-- Leading-whitespace removal. -/
def frontStrip (l : List Char) : List Char := l.dropWhile isPyWS

/-- Trailing-whitespace removal. -/
def backStrip (l : List Char) : List Char := (l.reverse.dropWhile isPyWS).reverse

/-- Python `s.strip()`. -/
def pyStrip (s : String) : String := ⟨backStrip (frontStrip s.data)⟩

/-- Stripping a read line (`[s.strip() for s in f.readlines()]`): only text
lines carry whitespace in this model. -/
def stripTok {α : Type} : Tok α → Tok α
  | .s v => .s (pyStrip v)
  | t => t

/-- Python `reader` from the raw file lines: strip every line, then decode. -/
def reader {α : Type} [LinearOrderedField α] (data : List (Tok α)) :
    Except DxfErr (List (RawEnt α)) :=
  decode (data.map stripTok)

instance {ε β : Type} [DecidableEq ε] [DecidableEq β] : DecidableEq (Except ε β) := fun x y =>
  match x, y with
  | .ok a1, .ok a2 =>
    if h : a1 = a2 then .isTrue (by rw [h]) else .isFalse (by simp [h])
  | .error a1, .error a2 =>
    if h : a1 = a2 then .isTrue (by rw [h]) else .isFalse (by simp [h])
  | .ok _, .error _ => .isFalse (by simp)
  | .error _, .ok _ => .isFalse (by simp)

/-!
The bounding-box utility, src/nctools/bbox.py.

A Python point argument is either a list of tuples or a single bare tuple of
numbers; `PArg` distinguishes the two (the promotion test
`len(pnts) in (2, 3) and isinstance(pnts[0], (int, float))` inspects exactly
this).  A tuple is modelled as a `List α`.  Python `zip(*pnts)` truncates to
the shortest tuple, so `x, y = zip(*pnts)` unpacks successfully exactly when
the shortest tuple has length 2 (and correspondingly for 3); under that
condition group `i` is the list of the points' `i`-th coordinates, written
here with `getD` (total, but only reached when every index is in range).
Python exceptions become `Except String` with the raised message.
-/

/-- Argument of the BBox methods: a list of point tuples, or one bare tuple
of numbers. -/
inductive PArg (α : Type) where
  | pts (l : List (List α))
  | point (p : List α)

/-- The axis-aligned bounding box object; `minz`/`maxz` are `None` for a
2-dimensional box. -/
structure BBox (α : Type) where
  dim : Nat
  minx : α
  maxx : α
  miny : α
  maxy : α
  minz : Option α
  maxz : Option α
deriving DecidableEq

/-- Python `min` over the nonempty coordinate tuple `x :: xs`. -/
def listMin {α : Type} [LinearOrder α] (x : α) (xs : List α) : α :=
  xs.foldl min x

/-- Python `max` over the nonempty coordinate tuple `x :: xs`. -/
def listMax {α : Type} [LinearOrder α] (x : α) (xs : List α) : α :=
  xs.foldl max x

/-- The body of `BBox.__init__` after the single-point promotion: branch on
the length of the FIRST point only; `zip(*pnts)` unpacking succeeds exactly
when every point is at least that long (see section comment). -/
def bboxFromPnts {α : Type} [LinearOrderedField α] (pnts : List (List α)) :
    Except String (BBox α) :=
  match pnts with
  | [] => .error "no points to create BBox"
  | p0 :: rest =>
    if p0.length = 2 then
      if (p0 :: rest).all (fun p => 2 ≤ p.length) then
        let xs := rest.map (fun p => p.getD 0 0)
        let ys := rest.map (fun p => p.getD 1 0)
        .ok ⟨2, listMin (p0.getD 0 0) xs, listMax (p0.getD 0 0) xs,
             listMin (p0.getD 1 0) ys, listMax (p0.getD 1 0) ys, none, none⟩
      else .error "unpack"
    else if p0.length = 3 then
      if (p0 :: rest).all (fun p => 3 ≤ p.length) then
        let xs := rest.map (fun p => p.getD 0 0)
        let ys := rest.map (fun p => p.getD 1 0)
        let zs := rest.map (fun p => p.getD 2 0)
        .ok ⟨3, listMin (p0.getD 0 0) xs, listMax (p0.getD 0 0) xs,
             listMin (p0.getD 1 0) ys, listMax (p0.getD 1 0) ys,
             some (listMin (p0.getD 2 0) zs), some (listMax (p0.getD 2 0) zs)⟩
      else .error "unpack"
    else .error "pnts must contain 2-tuples or 3-tuples"

/-- Python `BBox(pnts)`: the emptiness check (`if not pnts`), then the
single-point promotion, then the init body.  A bare tuple whose length is
not 2 or 3 escapes promotion, so `len(pnts[0])` is `len` of a number — a
`TypeError`. -/
def BBox_new {α : Type} [LinearOrderedField α] (a : PArg α) : Except String (BBox α) :=
  match a with
  | .pts [] => .error "no points to create BBox"
  | .point [] => .error "no points to create BBox"
  | .pts l => bboxFromPnts l
  | .point p =>
    if p.length = 2 ∨ p.length = 3 then bboxFromPnts [p]
    else .error "TypeError"

/-- The body of `BBox.update` after promotion: the dimension check against
the FIRST point, then re-init from the points plus the two current corner
points; `b.minz.getD 0` stands for Python reading `self.minz`, which is only
reached with `some` on boxes the class itself constructed. -/
def BBox.updateCore {α : Type} [LinearOrderedField α] (b : BBox α) (l : List (List α)) :
    Except String (BBox α) :=
  match l with
  | [] => .error "IndexError"
  | p0 :: _ =>
    if b.dim ≠ p0.length then .error "dimension of pnts[0] not conform bbox."
    else if b.dim = 2 then
      bboxFromPnts (l ++ [[b.minx, b.miny], [b.maxx, b.maxy]])
    else
      bboxFromPnts (l ++ [[b.minx, b.miny, b.minz.getD 0],
                          [b.maxx, b.maxy, b.maxz.getD 0]])

/-- Python `BBox.update(pnts)`: promotion (no emptiness check: `pnts[0]` of
an empty list is an `IndexError`), then the body. -/
def BBox.update {α : Type} [LinearOrderedField α] (b : BBox α) (a : PArg α) :
    Except String (BBox α) :=
  match a with
  | .point p =>
    if p.length = 2 ∨ p.length = 3 then BBox.updateCore b [p] else .error "TypeError"
  | .pts [] => .error "IndexError"
  | .pts l => BBox.updateCore b l

/-- Result of `BBox.inside`: one boolean for a promoted bare point, a list
of booleans otherwise. -/
inductive InsideRes where
  | one (b : Bool)
  | many (l : List Bool)
deriving DecidableEq

/-- The per-point containment test of `BBox.inside` (the list comprehension
body), with the tuple accesses `p[0]`, `p[1]`, and for a 3-dimensional box
`p[2]`; a too-short tuple is an `IndexError`. -/
def pointIn {α : Type} [LinearOrderedField α] (b : BBox α) (p : List α) :
    Except String Bool :=
  if b.dim = 2 then
    match p[0]?, p[1]? with
    | some x, some y =>
      .ok (decide (b.minx ≤ x ∧ x ≤ b.maxx ∧ b.miny ≤ y ∧ y ≤ b.maxy))
    | _, _ => .error "IndexError"
  else
    match p[0]?, p[1]?, p[2]? with
    | some x, some y, some z =>
      .ok (decide (b.minx ≤ x ∧ x ≤ b.maxx ∧ b.miny ≤ y ∧ y ≤ b.maxy ∧
                   b.minz.getD 0 ≤ z ∧ z ≤ b.maxz.getD 0))
    | _, _, _ => .error "IndexError"

/-- Effectful map for the `inside` comprehension (same abort-on-first-error
shape as `exMapM`, at the `String` error type). -/
def exMapS {β γ : Type} (f : β → Except String γ) : List β → Except String (List γ)
  | [] => .ok []
  | b :: bs =>
    match f b with
    | .error e => .error e
    | .ok c =>
      match exMapS f bs with
      | .error e => .error e
      | .ok cs => .ok (c :: cs)

/-- The body of `BBox.inside` after promotion: the dimension check against
the first point, the per-point booleans, and `rv[0]` for a promoted bare
point. -/
def BBox.insideCore {α : Type} [LinearOrderedField α] (b : BBox α)
    (l : List (List α)) (single : Bool) : Except String InsideRes :=
  match l with
  | [] => .error "IndexError"
  | p0 :: _ =>
    if p0.length ≠ b.dim then .error "dimension of pnts[0] not conform bbox."
    else
      match exMapS (pointIn b) l with
      | .error e => .error e
      | .ok rv =>
        if single then
          match rv with
          | r :: _ => .ok (.one r)
          | [] => .error "IndexError"
        else .ok (.many rv)

/-- Python `BBox.inside(pnts)`: promotion with the `single` flag, then the
body. -/
def BBox.inside {α : Type} [LinearOrderedField α] (b : BBox α) (a : PArg α) :
    Except String InsideRes :=
  match a with
  | .point p =>
    if p.length = 2 ∨ p.length = 3 then BBox.insideCore b [p] true else .error "TypeError"
  | .pts [] => .error "IndexError"
  | .pts l => BBox.insideCore b l false

/-- Python `BBox.width` property. -/
def BBox.width {α : Type} [LinearOrderedField α] (b : BBox α) : α := b.maxx - b.minx

/-- Python `BBox.height` property. -/
def BBox.height {α : Type} [LinearOrderedField α] (b : BBox α) : α := b.maxy - b.miny

/-!
The entity layer used by `writer` (src/nctools/dxf.py lines 53-77 and
198-237).  The class definitions live in nctools/ent.py, which is not part
of the sources; the data layout below is modelled from the spec (section 3,
DATA MODEL) and from the accesses dxf.py makes (`e.x[0]`, `e.y[0]`, `e.cx`,
`e.cy`, `e.R`, `e.a[0]`, `e.a[1]`, `e.ccw`, `e.flip()`, `e.entities`).
Angles of an `EArc` are radians.
-/

/-- Python `math.radians`: degrees to radians. -/
noncomputable def radOfDeg (d : ℝ) : ℝ := d * Real.pi / 180

/-- Python `math.degrees`: radians to degrees. -/
noncomputable def degOfRad (a : ℝ) : ℝ := a * 180 / Real.pi

/-- Modelled from the spec: `ent.Line` of the missing nctools/ent.py — two
endpoints, a source-order index and a layer name (spec section 3). -/
structure ELine where
  x1 : ℝ
  y1 : ℝ
  x2 : ℝ
  y2 : ℝ
  index : Nat
  layer : String

/-- Modelled from the spec: `ent.Arc` of the missing nctools/ent.py —
center, radius, start/end angle in radians, orientation flag, index, layer
(spec section 3). -/
structure EArc where
  cx : ℝ
  cy : ℝ
  R : ℝ
  a0 : ℝ
  a1 : ℝ
  ccw : Bool
  index : Nat
  layer : String

/-- Modelled from the spec: `e.flip()` on an `ent.Arc` "toggles `ccw` and
swaps `angle_start`/`angle_end` without otherwise altering identity" (spec
section 3, Lifecycle); written as a pure copy. -/
def EArc.flip (e : EArc) : EArc :=
  { e with a0 := e.a1, a1 := e.a0, ccw := !e.ccw }

/-- Modelled from the spec: the entity variants the writer dispatches on
(`ent.Contour` holds an ordered list of segments, spec section 3). -/
inductive Entity where
  | line (e : ELine)
  | arc (e : EArc)
  | contour (segs : List Entity) (index : Nat) (layer : String)

/-- Python `_dxfline`: the token block written for a Line (no trailing empty
line). -/
def _dxfline (e : ELine) : List (Tok ℝ) :=
  [.s "  0", .s "LINE", .s "  8", .s "snijlijnen", .s " 10", .num e.x1,
   .s " 20", .num e.y1, .s " 30", .num 0, .s " 11", .num e.x2,
   .s " 21", .num e.y2, .s " 31", .num 0]

/-- Python `_dxfarc`: flip a clockwise arc first (so the written angles
describe a counter-clockwise sweep), then the token block with the angles in
degrees. -/
noncomputable def _dxfarc (e : EArc) : List (Tok ℝ) :=
  let e2 := if e.ccw then e else e.flip
  [.s "  0", .s "ARC", .s "  8", .s "snijlijnen", .s " 10", .num e2.cx,
   .s " 20", .num e2.cy, .s " 30", .num 0, .s " 40", .num e2.R,
   .s " 50", .num (degOfRad e2.a0), .s " 51", .num (degOfRad e2.a1)]

/-- Python `_dxfcontour`: each constituent segment encoded independently in
the contour's stored order (only Line and Arc children are written). -/
noncomputable def _dxfcontour (segs : List Entity) : List (Tok ℝ) :=
  segs.foldr
    (fun k acc =>
      match k with
      | .arc a => _dxfarc a ++ acc
      | .line l => _dxfline l ++ acc
      | .contour _ _ _ => acc)
    []

/-- The token block the `writer` loop emits for one entity: the Line branch
is written inline in the Python source and ends with one empty line. -/
noncomputable def entityToks : Entity → List (Tok ℝ)
  | .line e => _dxfline e ++ [.s ""]
  | .arc e => _dxfarc e
  | .contour segs _ _ => _dxfcontour segs

/-- Python `writer`, as the list of lines written to the file: the three
999-comment records, the `SECTION`/`ENTITIES` header, every entity in input
order, and the `ENDSEC`/`EOF` footer (the final `''` append).  The
timestamp `datetime.now().strftime(...)` is the parameter `ts`. -/
noncomputable def writerToks (progname ts : String) (es : List Entity) : List (Tok ℝ) :=
  ([.s "999", .s ("DXF file generated by " ++ progname), .s "999",
    .s ("This conversion was started on " ++ ts), .s "999",
    .s ("This file contains " ++ toString es.length ++ " entities."),
    .s "  0", .s "SECTION", .s "  2", .s "ENTITIES"] : List (Tok ℝ)) ++
  (es.map entityToks).flatten ++
  [.s "  0", .s "ENDSEC", .s "  0", .s "EOF", .s ""]

/-- True for the entities the round-trip claim quantifies over (Lines and
Arcs, no contours). -/
def Entity.isPrim : Entity → Bool
  | .line _ => true
  | .arc _ => true
  | .contour _ _ _ => false

/-- The result of decoding the writer's output, computed directly: each
entity of the input list in order with its layer forced to `snijlijnen`, an
arc first ccw-normalized by `flip`, stored in degrees with the reader's
end-angle normalization; `pos` tracks the stream position of the block in
the ENTITIES slice (a written Line block has 17 lines, an Arc block 16, the
marker sits one line after the block start). -/
noncomputable def expectedOut : Nat → List Entity → List (RawEnt ℝ)
  | _, [] => []
  | pos, .line e :: es =>
    .line e.x1 e.y1 e.x2 e.y2 (pos + 1) "snijlijnen" :: expectedOut (pos + 17) es
  | pos, .arc e :: es =>
    (let e2 := if e.ccw then e else e.flip
     .arc e2.cx e2.cy e2.R (degOfRad e2.a0)
       (normEnd (degOfRad e2.a0) (degOfRad e2.a1)) (pos + 1) "snijlijnen") ::
    expectedOut (pos + 16) es
  | pos, .contour _ _ _ :: es => expectedOut pos es

/-!
Derived views and concrete input streams used by the claim theorems.
-/

/-- True for a decoded straight segment. -/
def RawEnt.isLine {α : Type} : RawEnt α → Bool
  | .line _ _ _ _ _ _ => true
  | _ => false

/-- The start point of a decoded segment (for an `.arc` this returns the
center; the claims only use it on straight segments). -/
def RawEnt.startPt {α : Type} : RawEnt α → α × α
  | .line x1 y1 _ _ _ _ => (x1, y1)
  | .parc x1 y1 _ _ _ _ _ => (x1, y1)
  | .arc cx cy _ _ _ _ _ => (cx, cy)

/-- The end point of a decoded segment (for an `.arc` this returns the
center; the claims only use it on straight segments). -/
def RawEnt.endPt {α : Type} : RawEnt α → α × α
  | .line _ _ x2 y2 _ _ => (x2, y2)
  | .parc _ _ x2 y2 _ _ _ => (x2, y2)
  | .arc cx cy _ _ _ _ _ => (cx, cy)

/-- Each segment's end point is the next segment's start point. -/
def chainOk {α : Type} [DecidableEq α] : List (RawEnt α) → Bool
  | [] => true
  | [_] => true
  | a :: b :: rest => (decide (RawEnt.endPt a = RawEnt.startPt b)) && chainOk (b :: rest)

/-- The segments chain consecutively and the last end point equals the first
start point. -/
def chainClosed {α : Type} [DecidableEq α] (l : List (RawEnt α)) : Bool :=
  chainOk l &&
  (match l, l.getLast? with
   | e0 :: _, some el => decide (RawEnt.endPt el = RawEnt.startPt e0)
   | _, _ => true)

/-- Entities slice of a stream with one closed `POLYLINE` (flag 70 = 1) and
three bulge-0 vertices: the triangle (0,0), (1,0), (0,1). -/
def c6lines : List (Tok ℚ) :=
  [.s "POLYLINE", .s "8", .s "L", .s "70", .int 1,
   .s "VERTEX", .s "10", .int 0, .s "20", .int 0,
   .s "VERTEX", .s "10", .int 1, .s "20", .int 0,
   .s "VERTEX", .s "10", .int 0, .s "20", .int 1,
   .s "SEQEND"]

/-- The closed-triangle stream of the C6 claim. -/
def c6data : List (Tok ℚ) := .s "ENTITIES" :: c6lines ++ [.s "ENDSEC"]

/-- Entities slice with two open polylines, each with its own two bulge-0
vertices; in the slice, the first `POLYLINE` marker is at 0 with its
`SEQEND` at 13, the second polyline's vertices are at 17 and 22. -/
def c1lines : List (Tok ℚ) :=
  [.s "POLYLINE", .s "8", .s "L1",
   .s "VERTEX", .s "10", .int 0, .s "20", .int 0,
   .s "VERTEX", .s "10", .int 1, .s "20", .int 0,
   .s "SEQEND",
   .s "POLYLINE", .s "8", .s "L2",
   .s "VERTEX", .s "10", .int 5, .s "20", .int 5,
   .s "VERTEX", .s "10", .int 6, .s "20", .int 5,
   .s "SEQEND"]

/-- The two-polyline stream of the C1 claim. -/
def c1data : List (Tok ℚ) := .s "ENTITIES" :: c1lines ++ [.s "ENDSEC"]

/-- Stream with one `ARC` whose start/end angle lines are 0 and 720
degrees. -/
def c5data : List (Tok ℚ) :=
  [.s "ENTITIES", .s "ARC", .s "8", .s "l", .s "10", .int 0, .s "20", .int 0,
   .s "40", .int 1, .s "50", .int 0, .s "51", .int 720, .s "ENDSEC"]

/-- Stream with two `LINE` markers where all group codes 8/10/20/11/21 sit
after the second marker: the first LINE has none of its codes before the
next entity marker. -/
def c2data : List (Tok ℚ) :=
  [.s "ENTITIES", .s "LINE", .s "LINE", .s "8", .s "A", .s "10", .int 1,
   .s "20", .int 2, .s "11", .int 3, .s "21", .int 4, .s "ENDSEC"]

/-- A well-formed single-LINE stream (used by witnesses). -/
def c4data : List (Tok ℚ) :=
  [.s "ENTITIES", .s "LINE", .s "8", .s "l", .s "10", .int 0, .s "20", .int 0,
   .s "11", .int 1, .s "21", .int 1, .s "ENDSEC"]

/-- The entities slice of `c2data` (two LINE markers at 0 and 1, all field
codes after the second marker). -/
def c2lines : List (Tok ℚ) :=
  [.s "LINE", .s "LINE", .s "8", .s "A", .s "10", .int 1,
   .s "20", .int 2, .s "11", .int 3, .s "21", .int 4]

/-- A well-formed ARC field block (used by the C5 witness). -/
def c5wlines : List (Tok ℚ) :=
  [.s "8", .s "l", .s "10", .int 5, .s "20", .int 5, .s "40", .int 3,
   .s "50", .int 0, .s "51", .int 0]

/-- True when the token is one of the four entity start markers. -/
def isEntityMarker {α : Type} (t : Tok α) : Bool :=
  tokIsStr t "LINE" || tokIsStr t "ARC" || tokIsStr t "CIRCLE" || tokIsStr t "POLYLINE"

/-- Whether an Except value is a success. -/
def exIsOk {ε β : Type} : Except ε β → Bool
  | .ok _ => true
  | .error _ => false

/-- Total form of the per-point containment test (the comprehension body of
`BBox.inside`), used to state what `inside` returns on well-shaped input. -/
def pointInB {α : Type} [LinearOrderedField α] (b : BBox α) (p : List α) : Bool :=
  if b.dim = 2 then
    decide (b.minx ≤ p.getD 0 0 ∧ p.getD 0 0 ≤ b.maxx ∧
            b.miny ≤ p.getD 1 0 ∧ p.getD 1 0 ≤ b.maxy)
  else
    decide (b.minx ≤ p.getD 0 0 ∧ p.getD 0 0 ≤ b.maxx ∧
            b.miny ≤ p.getD 1 0 ∧ p.getD 1 0 ≤ b.maxy ∧
            b.minz.getD 0 ≤ p.getD 2 0 ∧ p.getD 2 0 ≤ b.maxz.getD 0)

/-- The box invariant of the C10 claim: ordered bounds, non-negative derived
width and height, and ordered `some` z-bounds for a 3-dimensional box. -/
def bboxWf {α : Type} [LinearOrderedField α] (b : BBox α) : Prop :=
  b.minx ≤ b.maxx ∧ b.miny ≤ b.maxy ∧ 0 ≤ BBox.width b ∧ 0 ≤ BBox.height b ∧
  (b.dim = 3 → ∃ zm zM, b.minz = some zm ∧ b.maxz = some zM ∧ zm ≤ zM)

/-!
Definitions for the round-trip claim: the stripped form of the writer's
output, and the expected decode result split by entity kind.
-/

/-- The stripped token block of a written Line (the writer's inline LINE
branch, trailing empty line included), as the reader sees it. -/
def sLineBlk (e : ELine) : List (Tok ℝ) :=
  [.s "0", .s "LINE", .s "8", .s "snijlijnen", .s "10", .num e.x1,
   .s "20", .num e.y1, .s "30", .num 0, .s "11", .num e.x2,
   .s "21", .num e.y2, .s "31", .num 0, .s ""]

/-- The stripped token block of a written Arc (after the writer's
ccw-normalizing flip), as the reader sees it. -/
noncomputable def sArcBlk (e : EArc) : List (Tok ℝ) :=
  [.s "0", .s "ARC", .s "8", .s "snijlijnen", .s "10", .num (if e.ccw then e else e.flip).cx,
   .s "20", .num (if e.ccw then e else e.flip).cy, .s "30", .num 0,
   .s "40", .num (if e.ccw then e else e.flip).R,
   .s "50", .num (degOfRad (if e.ccw then e else e.flip).a0),
   .s "51", .num (degOfRad (if e.ccw then e else e.flip).a1)]

/-- The stripped block of one written entity (contours do not occur under
the round-trip hypothesis). -/
noncomputable def sBlk : Entity → List (Tok ℝ)
  | .line e => sLineBlk e
  | .arc e => sArcBlk e
  | .contour _ _ _ => []

/-- The stripped entity region of the writer's output. -/
noncomputable def sBlocks (es : List Entity) : List (Tok ℝ) :=
  (es.map sBlk).flatten

/-- The stripped header of the writer's output (`n` is the entity count
interpolated into the third comment record). -/
def sHeader (progname ts : String) (n : Nat) : List (Tok ℝ) :=
  [.s "999", .s (pyStrip ("DXF file generated by " ++ progname)), .s "999",
   .s (pyStrip ("This conversion was started on " ++ ts)), .s "999",
   .s (pyStrip ("This file contains " ++ toString n ++ " entities.")),
   .s "0", .s "SECTION", .s "2", .s "ENTITIES"]

/-- The stripped footer of the writer's output. -/
def sFooter : List (Tok ℝ) := [.s "0", .s "ENDSEC", .s "0", .s "EOF", .s ""]

/-- What `_get_lines` returns on the writer's stream: the Line entities in
order, each at the position of its marker (`pos` tracks the block start). -/
noncomputable def expectedLines : Nat → List Entity → List (RawEnt ℝ)
  | _, [] => []
  | pos, .line e :: es =>
    .line e.x1 e.y1 e.x2 e.y2 (pos + 1) "snijlijnen" :: expectedLines (pos + 17) es
  | pos, .arc _ :: es => expectedLines (pos + 16) es
  | pos, .contour _ _ _ :: es => expectedLines pos es

/-- What `_get_arcs` returns on the writer's stream. -/
noncomputable def expectedArcs : Nat → List Entity → List (RawEnt ℝ)
  | _, [] => []
  | pos, .line _ :: es => expectedArcs (pos + 17) es
  | pos, .arc e :: es =>
    .arc (if e.ccw then e else e.flip).cx (if e.ccw then e else e.flip).cy
      (if e.ccw then e else e.flip).R (degOfRad (if e.ccw then e else e.flip).a0)
      (normEnd (degOfRad (if e.ccw then e else e.flip).a0)
        (degOfRad (if e.ccw then e else e.flip).a1)) (pos + 1) "snijlijnen" ::
    expectedArcs (pos + 16) es
  | pos, .contour _ _ _ :: es => expectedArcs pos es

/-- Strict index order, used to show the sorted decode output is unique. -/
def entLt {α : Type} (a b : RawEnt α) : Prop :=
  RawEnt.index a < RawEnt.index b

instance {α : Type} : IsAntisymm (RawEnt α) entLt :=
  ⟨fun _ _ h1 h2 => absurd h2 (Nat.lt_asymm h1)⟩

/-- No token of the list matches keyword `kw`. -/
def noKwB (kw : String) (ts : List (Tok ℝ)) : Bool :=
  ts.all (fun t => !tokIsStr t kw)

/-!
Claim theorems.
-/

/-- C6: decoding a stream containing one POLYLINE with flag bit 0 set
(closed) and exactly three VERTEX records with bulge 0 yields exactly three
Line segments forming a closed triangle: each segment's end point is the
next one's start point and the last end point equals the first start
point. -/
theorem C6_closed_triangle :
    decode c6data =
      .ok [.line 0 0 1 0 0 "L", .line 1 0 0 1 0 "L", .line 0 1 0 0 0 "L"] ∧
    ([(.line 0 0 1 0 0 "L" : RawEnt ℚ), .line 1 0 0 1 0 "L",
      .line 0 1 0 0 0 "L"].all RawEnt.isLine) = true ∧
    chainClosed [(.line 0 0 1 0 0 "L" : RawEnt ℚ), .line 1 0 0 1 0 "L",
      .line 0 1 0 0 0 "L"] = true := by
  refine ⟨by decide, by decide, by decide⟩

/-- C1: the code does NOT restrict a polyline's vertices to the span between
its POLYLINE marker and its SEQEND.  In `c1data` the first polyline's
`SEQEND` is at slice position 13, yet its decoded segments (index 0) use the
second polyline's vertices at positions 17 and 22 — e.g. the segment from
(1,0) to (5,5) — and the second polyline (index 14) likewise rebuilds
segments from the first one's vertices. -/
theorem C1_vertex_span_code_bug :
    decode c1data =
      .ok [.line 0 0 1 0 0 "L1", .line 1 0 5 5 0 "L1", .line 5 5 6 5 0 "L1",
           .line 0 0 1 0 14 "L2", .line 1 0 5 5 14 "L2", .line 5 5 6 5 14 "L2"] ∧
    indexFrom c1lines "SEQEND" 0 = some 13 ∧
    c1lines[17]? = some (.s "VERTEX") ∧
    c1lines[22]? = some (.s "VERTEX") := by
  refine ⟨by decide, by decide, by decide, by decide⟩

/-!
Support lemmas on the scanning primitives.
-/

theorem findTok_eq_none_iff {α : Type} {x : String} {l : List (Tok α)} :
    findTok x l = none ↔ ∀ t ∈ l, tokIsStr t x = false := by
  induction l with
  | nil => simp [findTok]
  | cons t ts ih =>
    by_cases h : tokIsStr t x
    · simp [findTok, h]
    · simp [findTok, h, ih, Bool.not_eq_true]

theorem indexFrom_eq_none {α : Type} {lines : List (Tok α)} {x : String} {i : Nat}
    (h : ∀ j t, i ≤ j → lines[j]? = some t → tokIsStr t x = false) :
    indexFrom lines x i = none := by
  have hnone : findTok x (lines.drop i) = none := by
    rw [findTok_eq_none_iff]
    intro t ht
    obtain ⟨k, hk, hget⟩ := List.mem_iff_getElem.mp ht
    have : lines[i + k]? = some t := by
      rw [← List.getElem?_drop]
      exact (List.getElem?_eq_getElem hk).trans (by rw [hget])
    exact h (i + k) t (Nat.le_add_right i k) this
  simp [indexFrom, hnone]

theorem exMapM_mem {β γ : Type} {f : β → Except DxfErr γ} {xs : List β}
    {ys : List γ} {y : γ} (h : exMapM f xs = .ok ys) (hy : y ∈ ys) :
    ∃ x ∈ xs, f x = .ok y := by
  induction xs generalizing ys with
  | nil =>
    simp only [exMapM] at h
    cases h
    cases hy
  | cons b bs ih =>
    simp only [exMapM] at h
    cases hfb : f b with
    | error e => rw [hfb] at h; cases h
    | ok c =>
      rw [hfb] at h
      cases hrest : exMapM f bs with
      | error e => rw [hrest] at h; cases h
      | ok cs =>
        rw [hrest] at h
        cases h
        rcases List.mem_cons.mp hy with hy1 | hy2
        · exact ⟨b, List.mem_cons_self b bs, by rw [hfb, hy1]⟩
        · obtain ⟨x, hx1, hx2⟩ := ih hrest hy2
          exact ⟨x, List.mem_cons_of_mem b hx1, hx2⟩

theorem exMapM_error_of_mem {β γ : Type} {f : β → Except DxfErr γ} {xs : List β}
    {b : β} (hb : b ∈ xs) (hf : f b = .error DxfErr.missingField)
    (herr : ∀ x e, f x = .error e → e = DxfErr.missingField) :
    exMapM f xs = .error DxfErr.missingField := by
  induction xs with
  | nil => cases hb
  | cons x rest ih =>
    rcases List.mem_cons.mp hb with hb1 | hb2
    · subst hb1
      simp [exMapM, hf]
    · cases hfx : f x with
      | error e =>
        have := herr x e hfx
        subst this
        simp [exMapM, hfx]
      | ok c =>
        simp only [exMapM, hfx]
        rw [ih hb2]

theorem markersFrom_mem {α : Type} {kw : String} :
    ∀ {l : List (Tok α)} {n i : Nat}, i ∈ markersFrom kw l n →
      ∃ k t, i = n + k ∧ l[k]? = some t ∧ tokIsStr t kw = true := by
  intro l
  induction l with
  | nil => intro n i h; simp [markersFrom] at h
  | cons t ts ih =>
    intro n i h
    by_cases htok : tokIsStr t kw
    · simp only [markersFrom, htok, if_pos] at h
      rcases List.mem_cons.mp h with h1 | h2
      · exact ⟨0, t, by omega, by simp, htok⟩
      · obtain ⟨k, u, hk, hget, hu⟩ := ih h2
        exact ⟨k + 1, u, by omega, by simpa using hget, hu⟩
    · simp only [markersFrom, htok, if_neg, Bool.false_eq_true, not_false_iff] at h
      obtain ⟨k, u, hk, hget, hu⟩ := ih h
      exact ⟨k + 1, u, by omega, by simpa using hget, hu⟩

theorem markersOf_mem {α : Type} {kw : String} {lines : List (Tok α)} {i : Nat}
    (h : i ∈ markersOf lines kw) :
    ∃ t, lines[i]? = some t ∧ tokIsStr t kw = true := by
  obtain ⟨k, t, hk, hget, ht⟩ := markersFrom_mem h
  exact ⟨t, by simpa [hk] using hget, ht⟩

theorem lineAt_error {α : Type} [IntCast α] {lines : List (Tok α)} {i : Nat}
    {e : DxfErr} (h : lineAt lines i = .error e) : e = DxfErr.missingField := by
  unfold lineAt at h
  repeat' split at h
  all_goals first
    | (cases h; rfl)
    | cases h

theorem lineAt_ok {α : Type} [IntCast α] {lines : List (Tok α)} {i : Nat}
    {v : RawEnt α} (h : lineAt lines i = .ok v) :
    ∃ x1 y1 x2 y2 lay, v = .line x1 y1 x2 y2 i lay := by
  unfold lineAt at h
  repeat' split at h
  all_goals cases h
  exact ⟨_, _, _, _, _, rfl⟩

theorem arcAt_ok {α : Type} [LinearOrderedField α] {lines : List (Tok α)} {i : Nat}
    {v : RawEnt α} (h : arcAt lines i = .ok v) :
    ∃ cx cy r d1 d2 lay, v = .arc cx cy r d1 (normEnd d1 d2) i lay := by
  unfold arcAt at h
  repeat' split at h
  all_goals cases h
  exact ⟨_, _, _, _, _, _, rfl⟩

theorem circleAt_ok {α : Type} [LinearOrderedField α] {lines : List (Tok α)} {i : Nat}
    {v : RawEnt α} (h : circleAt lines i = .ok v) :
    ∃ cx cy r lay, v = .arc cx cy r 0 360 i lay := by
  unfold circleAt at h
  repeat' split at h
  all_goals cases h
  exact ⟨_, _, _, _, rfl⟩

theorem segOf_index {α : Type} [LinearOrderedField α] {i : Nat} {lay : String}
    {t : ((α × α) × (α × α)) × α} {v : RawEnt α} (h : segOf i lay t = .ok v) :
    RawEnt.index v = i := by
  unfold segOf at h
  repeat' split at h
  all_goals cases h
  all_goals rfl

theorem polySegsOf_index {α : Type} [LinearOrderedField α] {i : Nat} {lay : String}
    {closed : Bool} {vd : List (α × α × α)} {vs : List (RawEnt α)}
    (h : polySegsOf i lay closed vd = .ok vs) : ∀ v ∈ vs, RawEnt.index v = i := by
  intro v hv
  unfold polySegsOf at h
  repeat' split at h
  all_goals try cases h
  all_goals
    obtain ⟨x, _, hx⟩ := exMapM_mem h hv
    exact segOf_index hx

theorem polyAt_ok_index {α : Type} [LinearOrderedField α] {lines : List (Tok α)}
    {i : Nat} {vs : List (RawEnt α)} (h : polyAt lines i = .ok vs) :
    ∀ v ∈ vs, RawEnt.index v = i := by
  intro v hv
  unfold polyAt at h
  repeat' split at h
  all_goals first
    | cases h
    | exact polySegsOf_index h v hv

theorem decode_ok_elim {α : Type} [LinearOrderedField α] {d : List (Tok α)}
    {es : List (RawEnt α)} (h : decode d = .ok es) :
    ∃ lines la lb lc lp, entSlice d = .ok lines ∧
      _get_lines lines = .ok la ∧ _get_arcs lines = .ok lb ∧
      _get_circles lines = .ok lc ∧ _get_polylines lines = .ok lp ∧
      es = List.insertionSort entLe (la ++ lb ++ lc ++ lp) := by
  unfold decode decodeSlice at h
  repeat' split at h
  all_goals try cases h
  exact ⟨_, _, _, _, _, by assumption, by assumption, by assumption, by assumption,
    by assumption, rfl⟩

/-- C7: a stream containing the ENTITIES marker but no ENDSEC after it
decodes to the MalformedSection error (decode is a total function, so it
terminates; no entity list is returned). -/
theorem C7_missing_endsec {α : Type} [LinearOrderedField α] (d : List (Tok α)) (s : Nat)
    (h1 : indexFrom d "ENTITIES" 0 = some s)
    (h2 : ∀ j t, s < j → d[j]? = some t → tokIsStr t "ENDSEC" = false) :
    decode d = .error DxfErr.malformedSection := by
  have hnone : indexFrom d "ENDSEC" (s + 1) = none :=
    indexFrom_eq_none (fun j t hj ht => h2 j t (by omega) ht)
  simp only [decode, entSlice, h1, hnone]

theorem C7_missing_endsec_witness :
    indexFrom ([.s "ENTITIES"] : List (Tok ℚ)) "ENTITIES" 0 = some 0 ∧
    decode ([.s "ENTITIES"] : List (Tok ℚ)) = .error DxfErr.malformedSection := by
  constructor
  · decide
  · refine C7_missing_endsec _ 0 (by decide) ?_
    intro j t hj ht
    cases j with
    | zero => omega
    | succ n => simp at ht

/-- C2 fails as stated: in `c2data` the first LINE marker (slice position 0)
has none of the codes 8/10/20/11/21 before the next entity marker (slice
position 1) — the first 8 is at position 2 — yet decode does not fail with
MissingField; it succeeds and builds the first LINE from the values that
belong to the second one. -/
theorem C2_counterexample :
    entSlice c2data = .ok c2lines ∧
    markersOf c2lines "LINE" = [0, 1] ∧
    indexFrom c2lines "8" 0 = some 2 ∧
    decode c2data = .ok [.line 1 2 3 4 0 "A", .line 1 2 3 4 1 "A"] := by
  refine ⟨by decide, by decide, by decide, by decide⟩

/-- C2 amended: the decoder locates the codes 8, 10, 20, 11, 21 sequentially
after the marker, each search running to the END of the ENTITIES slice
rather than stopping at the next entity marker (it may take values
belonging to later entities); when the sequential lookup for some LINE
marker fails, the whole decode fails with MissingField and no partial
result. -/
theorem C2_amended {α : Type} [LinearOrderedField α] (d lines : List (Tok α)) (i : Nat)
    (h1 : entSlice d = .ok lines) (h2 : i ∈ markersOf lines "LINE")
    (h3 : lineAt lines i = .error DxfErr.missingField) :
    decode d = .error DxfErr.missingField := by
  have hg : _get_lines lines = .error DxfErr.missingField :=
    exMapM_error_of_mem h2 h3 (fun x e he => lineAt_error he)
  simp only [decode, h1, decodeSlice, hg]

theorem C2_amended_witness :
    entSlice ([.s "ENTITIES", .s "LINE", .s "ENDSEC"] : List (Tok ℚ)) = .ok [.s "LINE"] ∧
    0 ∈ markersOf ([.s "LINE"] : List (Tok ℚ)) "LINE" ∧
    decode ([.s "ENTITIES", .s "LINE", .s "ENDSEC"] : List (Tok ℚ)) =
      .error DxfErr.missingField := by
  exact ⟨by decide, by decide,
    C2_amended ([.s "ENTITIES", .s "LINE", .s "ENDSEC"] : List (Tok ℚ)) [.s "LINE"] 0
      (by decide) (by decide) (by decide)⟩

/-- C4: whenever decode succeeds, the returned list is sorted ascending by
index, and every returned entity's index is the position, within the
ENTITIES slice, of one of the four entity start markers. -/
theorem C4_sorted_by_index {α : Type} [LinearOrderedField α] (d : List (Tok α))
    (es : List (RawEnt α)) (h : decode d = .ok es) :
    es.Sorted entLe ∧ ∃ lines, entSlice d = .ok lines ∧
      ∀ e ∈ es, ∃ t, lines[RawEnt.index e]? = some t ∧ isEntityMarker t = true := by
  obtain ⟨lines, la, lb, lc, lp, h1, h2, h3, h4, h5, rfl⟩ := decode_ok_elim h
  refine ⟨List.sorted_insertionSort entLe _, lines, h1, ?_⟩
  intro e he
  rw [List.mem_insertionSort] at he
  have hmem : e ∈ la ∨ e ∈ lb ∨ e ∈ lc ∨ e ∈ lp := by
    simpa [List.mem_append, or_assoc] using he
  rcases hmem with hla | hlb | hlc | hlp
  · obtain ⟨i, hi, hok⟩ := exMapM_mem h2 hla
    obtain ⟨x1, y1, x2, y2, lay, rfl⟩ := lineAt_ok hok
    obtain ⟨t, ht, htok⟩ := markersOf_mem hi
    exact ⟨t, by simpa [RawEnt.index] using ht, by simp [isEntityMarker, htok]⟩
  · obtain ⟨i, hi, hok⟩ := exMapM_mem h3 hlb
    obtain ⟨cx, cy, r, d1, d2, lay, rfl⟩ := arcAt_ok hok
    obtain ⟨t, ht, htok⟩ := markersOf_mem hi
    exact ⟨t, by simpa [RawEnt.index] using ht, by simp [isEntityMarker, htok]⟩
  · obtain ⟨i, hi, hok⟩ := exMapM_mem h4 hlc
    obtain ⟨cx, cy, r, lay, rfl⟩ := circleAt_ok hok
    obtain ⟨t, ht, htok⟩ := markersOf_mem hi
    exact ⟨t, by simpa [RawEnt.index] using ht, by simp [isEntityMarker, htok]⟩
  · have hpoly : ∃ i ∈ markersOf lines "POLYLINE", RawEnt.index e = i := by
      unfold _get_polylines at h5
      revert h5
      cases h6 : exMapM (polyAt lines) (markersOf lines "POLYLINE") with
      | error er => intro h5; cases h5
      | ok ls =>
        intro h5
        cases h5
        obtain ⟨sub, hsub, hesub⟩ := List.mem_flatten.mp hlp
        obtain ⟨i, hi, hok⟩ := exMapM_mem h6 hsub
        exact ⟨i, hi, polyAt_ok_index hok e hesub⟩
    obtain ⟨i, hi, hidx⟩ := hpoly
    obtain ⟨t, ht, htok⟩ := markersOf_mem hi
    exact ⟨t, by rw [hidx]; exact ht, by simp [isEntityMarker, htok]⟩

theorem C4_sorted_by_index_witness :
    decode c4data = .ok [.line 0 0 1 1 0 "l"] ∧
    ([(.line 0 0 1 1 0 "l" : RawEnt ℚ)].Sorted entLe ∧
     ∃ lines, entSlice c4data = .ok lines ∧
       ∀ e ∈ [(.line 0 0 1 1 0 "l" : RawEnt ℚ)],
         ∃ t, lines[RawEnt.index e]? = some t ∧ isEntityMarker t = true) :=
  ⟨by decide, C4_sorted_by_index c4data _ (by decide)⟩

/-- C5 fails as stated: decoding an ARC whose start/end angle lines hold 0
and 720 degrees stores the angles 0 and 720 degrees unchanged (no full turn
is added since end > start), so the angular span in radians is 4π, outside
[0, 2π). -/
theorem C5_counterexample :
    decode c5data = .ok [.arc 0 0 1 0 720 0 "l"] ∧
    radOfDeg 720 - radOfDeg 0 = 4 * Real.pi ∧
    ¬ (radOfDeg 720 - radOfDeg 0 < 2 * Real.pi) := by
  refine ⟨by decide, ?_, ?_⟩
  · unfold radOfDeg
    ring
  · unfold radOfDeg
    intro hlt
    have hpi := Real.pi_pos
    nlinarith

/-- C5 amended: every successfully decoded ARC stores its source degree
values with `normEnd` applied to the end angle (a full turn added exactly
when end < start); the angular span `radOfDeg d2 - radOfDeg d1` lies in
[0, 2π) whenever the SOURCE degree values both lie in [0, 360) — not for
arbitrary source angles. -/
theorem C5_amended :
    (∀ {α : Type} [LinearOrderedField α] (lines : List (Tok α)) (i : Nat)
        (a : RawEnt α), arcAt lines i = .ok a →
        ∃ cx cy r d1 d2 lay, a = .arc cx cy r d1 (normEnd d1 d2) i lay) ∧
    (∀ d1 d2 : ℝ, 0 ≤ d1 → d1 < 360 → 0 ≤ d2 → d2 < 360 →
        0 ≤ radOfDeg (normEnd d1 d2) - radOfDeg d1 ∧
        radOfDeg (normEnd d1 d2) - radOfDeg d1 < 2 * Real.pi) := by
  constructor
  · intro α instA lines i a h
    exact arcAt_ok h
  · intro d1 d2 h1 h2 h3 h4
    have hpi := Real.pi_pos
    unfold normEnd radOfDeg
    split
    · constructor
      · nlinarith
      · nlinarith
    · constructor
      · nlinarith
      · nlinarith

theorem C5_amended_witness :
    (∃ cx cy r d1 d2 lay,
        (.arc 5 5 3 0 (normEnd 0 0) 0 "l" : RawEnt ℚ) = .arc cx cy r d1 (normEnd d1 d2) 0 lay) ∧
    (0 ≤ radOfDeg (normEnd 0 90) - radOfDeg 0 ∧
     radOfDeg (normEnd 0 90) - radOfDeg 0 < 2 * Real.pi) :=
  ⟨C5_amended.1 c5wlines 0 (.arc 5 5 3 0 (normEnd 0 0) 0 "l") (by decide),
   C5_amended.2 0 90 (by norm_num) (by norm_num) (by norm_num) (by norm_num)⟩

/-!
Support lemmas for the bounding-box claims.
-/

theorem listMin_le_self {α : Type} [LinearOrder α] (x : α) (xs : List α) :
    listMin x xs ≤ x := by
  induction xs generalizing x with
  | nil => exact le_refl x
  | cons y ys ih => exact le_trans (ih (min x y)) (min_le_left x y)

theorem self_le_listMax {α : Type} [LinearOrder α] (x : α) (xs : List α) :
    x ≤ listMax x xs := by
  induction xs generalizing x with
  | nil => exact le_refl x
  | cons y ys ih => exact le_trans (le_max_left x y) (ih (max x y))

theorem listMin_le_mem {α : Type} [LinearOrder α] {x a : α} {xs : List α}
    (h : a ∈ xs) : listMin x xs ≤ a := by
  induction xs generalizing x with
  | nil => cases h
  | cons y ys ih =>
    rcases List.mem_cons.mp h with h1 | h2
    · subst h1
      exact le_trans (listMin_le_self (min x a) ys) (min_le_right x a)
    · exact ih h2

theorem mem_le_listMax {α : Type} [LinearOrder α] {x a : α} {xs : List α}
    (h : a ∈ xs) : a ≤ listMax x xs := by
  induction xs generalizing x with
  | nil => cases h
  | cons y ys ih =>
    rcases List.mem_cons.mp h with h1 | h2
    · subst h1
      exact le_trans (le_max_right x a) (self_le_listMax (max x a) ys)
    · exact ih h2

theorem bboxFromPnts_ok_wf {α : Type} [LinearOrderedField α] {pnts : List (List α)}
    {b : BBox α} (h : bboxFromPnts pnts = .ok b) : bboxWf b := by
  unfold bboxFromPnts at h
  repeat' split at h
  all_goals cases h
  · refine ⟨le_trans (listMin_le_self _ _) (self_le_listMax _ _),
      le_trans (listMin_le_self _ _) (self_le_listMax _ _), ?_, ?_, ?_⟩
    · simp only [BBox.width]
      exact sub_nonneg.mpr (le_trans (listMin_le_self _ _) (self_le_listMax _ _))
    · simp only [BBox.height]
      exact sub_nonneg.mpr (le_trans (listMin_le_self _ _) (self_le_listMax _ _))
    · intro h3
      simp at h3
  · refine ⟨le_trans (listMin_le_self _ _) (self_le_listMax _ _),
      le_trans (listMin_le_self _ _) (self_le_listMax _ _), ?_, ?_, ?_⟩
    · simp only [BBox.width]
      exact sub_nonneg.mpr (le_trans (listMin_le_self _ _) (self_le_listMax _ _))
    · simp only [BBox.height]
      exact sub_nonneg.mpr (le_trans (listMin_le_self _ _) (self_le_listMax _ _))
    · intro _
      exact ⟨_, _, rfl, rfl, le_trans (listMin_le_self _ _) (self_le_listMax _ _)⟩

theorem bboxFromPnts_bounds {α : Type} [LinearOrderedField α] {pnts : List (List α)}
    {b2 : BBox α} (h : bboxFromPnts pnts = .ok b2) :
    ∀ c ∈ pnts, b2.minx ≤ c.getD 0 0 ∧ c.getD 0 0 ≤ b2.maxx ∧
      b2.miny ≤ c.getD 1 0 ∧ c.getD 1 0 ≤ b2.maxy ∧
      (∀ zm2 ∈ b2.minz, zm2 ≤ c.getD 2 0) ∧ (∀ zM2 ∈ b2.maxz, c.getD 2 0 ≤ zM2) := by
  intro c hc
  unfold bboxFromPnts at h
  repeat' split at h
  all_goals cases h
  · rcases List.mem_cons.mp hc with h1 | h2
    · subst h1
      exact ⟨listMin_le_self _ _, self_le_listMax _ _, listMin_le_self _ _,
        self_le_listMax _ _, by simp, by simp⟩
    · exact ⟨listMin_le_mem (List.mem_map_of_mem _ h2),
        mem_le_listMax (List.mem_map_of_mem _ h2),
        listMin_le_mem (List.mem_map_of_mem _ h2),
        mem_le_listMax (List.mem_map_of_mem _ h2), by simp, by simp⟩
  · rcases List.mem_cons.mp hc with h1 | h2
    · subst h1
      refine ⟨listMin_le_self _ _, self_le_listMax _ _, listMin_le_self _ _,
        self_le_listMax _ _, ?_, ?_⟩
      · intro zm2 hzm2
        cases hzm2
        exact listMin_le_self _ _
      · intro zM2 hzM2
        cases hzM2
        exact self_le_listMax _ _
    · refine ⟨listMin_le_mem (List.mem_map_of_mem _ h2),
        mem_le_listMax (List.mem_map_of_mem _ h2),
        listMin_le_mem (List.mem_map_of_mem _ h2),
        mem_le_listMax (List.mem_map_of_mem _ h2), ?_, ?_⟩
      · intro zm2 hzm2
        cases hzm2
        exact listMin_le_mem (List.mem_map_of_mem _ h2)
      · intro zM2 hzM2
        cases hzM2
        exact mem_le_listMax (List.mem_map_of_mem _ h2)

theorem bboxFromPnts_dim2_z {α : Type} [LinearOrderedField α] {p0 : List α}
    {rest : List (List α)} {b2 : BBox α} (h : bboxFromPnts (p0 :: rest) = .ok b2)
    (h2 : p0.length = 2) : b2.minz = none ∧ b2.maxz = none := by
  simp only [bboxFromPnts] at h
  rw [if_pos h2] at h
  split at h
  · cases h
    exact ⟨rfl, rfl⟩
  · cases h

theorem updateCore_mono {α : Type} [LinearOrderedField α] {b : BBox α}
    {l : List (List α)} {b2 : BBox α} (h : BBox.updateCore b l = .ok b2) :
    bboxWf b2 ∧ b2.minx ≤ b.minx ∧ b.maxx ≤ b2.maxx ∧ b2.miny ≤ b.miny ∧
    b.maxy ≤ b2.maxy ∧ (∀ zm ∈ b.minz, ∀ zm2 ∈ b2.minz, zm2 ≤ zm) ∧
    (∀ zM ∈ b.maxz, ∀ zM2 ∈ b2.maxz, zM ≤ zM2) := by
  cases l with
  | nil =>
    simp only [BBox.updateCore] at h
    cases h
  | cons p0 rest =>
    simp only [BBox.updateCore] at h
    by_cases hdim : b.dim ≠ p0.length
    · rw [if_pos hdim] at h; cases h
    · rw [if_neg hdim] at h
      push_neg at hdim
      by_cases h2 : b.dim = 2
      · rw [if_pos h2] at h
        have hc1 := bboxFromPnts_bounds h [b.minx, b.miny] (by simp)
        have hc2 := bboxFromPnts_bounds h [b.maxx, b.maxy] (by simp)
        have hz : b2.minz = none ∧ b2.maxz = none := by
          have hsh : (p0 :: rest) ++ [[b.minx, b.miny], [b.maxx, b.maxy]] =
              p0 :: (rest ++ [[b.minx, b.miny], [b.maxx, b.maxy]]) := by simp
          rw [hsh] at h
          exact bboxFromPnts_dim2_z h (by omega)
        refine ⟨bboxFromPnts_ok_wf h, by simpa using hc1.1, by simpa using hc2.2.1,
          by simpa using hc1.2.2.1, by simpa using hc2.2.2.2.1, ?_, ?_⟩
        · intro zm _ zm2 hzm2
          rw [hz.1] at hzm2
          cases hzm2
        · intro zM _ zM2 hzM2
          rw [hz.2] at hzM2
          cases hzM2
      · rw [if_neg h2] at h
        have hc1 := bboxFromPnts_bounds h [b.minx, b.miny, b.minz.getD 0] (by simp)
        have hc2 := bboxFromPnts_bounds h [b.maxx, b.maxy, b.maxz.getD 0] (by simp)
        refine ⟨bboxFromPnts_ok_wf h, by simpa using hc1.1, by simpa using hc2.2.1,
          by simpa using hc1.2.2.1, by simpa using hc2.2.2.2.1, ?_, ?_⟩
        · intro zm hzm zm2 hzm2
          have h5 := hc1.2.2.2.2.1 zm2 hzm2
          rw [Option.mem_def] at hzm
          simp [hzm] at h5
          exact h5
        · intro zM hzM zM2 hzM2
          have h5 := hc2.2.2.2.2.2 zM2 hzM2
          rw [Option.mem_def] at hzM
          simp [hzM] at h5
          exact h5

/-- C10: construction and every grow-to-include yield a box with ordered
bounds (hence non-negative width/height, and ordered z-bounds when the
dimension is 3), and grow-to-include never shrinks any bound. -/
theorem C10_bbox_invariants {α : Type} [LinearOrderedField α] :
    (∀ (a : PArg α) (b : BBox α), BBox_new a = .ok b → bboxWf b) ∧
    (∀ (b : BBox α) (a : PArg α) (b2 : BBox α), BBox.update b a = .ok b2 →
      bboxWf b2 ∧ b2.minx ≤ b.minx ∧ b.maxx ≤ b2.maxx ∧ b2.miny ≤ b.miny ∧
      b.maxy ≤ b2.maxy ∧ (∀ zm ∈ b.minz, ∀ zm2 ∈ b2.minz, zm2 ≤ zm) ∧
      (∀ zM ∈ b.maxz, ∀ zM2 ∈ b2.maxz, zM ≤ zM2)) := by
  constructor
  · intro a b h
    unfold BBox_new at h
    repeat' split at h
    all_goals first
      | cases h
      | exact bboxFromPnts_ok_wf h
  · intro b a b2 h
    unfold BBox.update at h
    repeat' split at h
    all_goals first
      | cases h
      | exact updateCore_mono h

theorem C10_bbox_invariants_witness :
    BBox_new (.pts ([[0, 0], [1, 2]] : List (List ℚ))) = .ok ⟨2, 0, 1, 0, 2, none, none⟩ ∧
    bboxWf (⟨2, 0, 1, 0, 2, none, none⟩ : BBox ℚ) ∧
    BBox.update (⟨2, 0, 1, 0, 2, none, none⟩ : BBox ℚ) (.pts [[5, 5]]) =
      .ok ⟨2, 0, 5, 0, 5, none, none⟩ ∧
    (bboxWf (⟨2, 0, 5, 0, 5, none, none⟩ : BBox ℚ) ∧
     (⟨2, 0, 5, 0, 5, none, none⟩ : BBox ℚ).minx ≤ (⟨2, 0, 1, 0, 2, none, none⟩ : BBox ℚ).minx ∧
     (⟨2, 0, 1, 0, 2, none, none⟩ : BBox ℚ).maxx ≤ (⟨2, 0, 5, 0, 5, none, none⟩ : BBox ℚ).maxx ∧
     (⟨2, 0, 5, 0, 5, none, none⟩ : BBox ℚ).miny ≤ (⟨2, 0, 1, 0, 2, none, none⟩ : BBox ℚ).miny ∧
     (⟨2, 0, 1, 0, 2, none, none⟩ : BBox ℚ).maxy ≤ (⟨2, 0, 5, 0, 5, none, none⟩ : BBox ℚ).maxy ∧
     (∀ zm ∈ (⟨2, 0, 1, 0, 2, none, none⟩ : BBox ℚ).minz,
        ∀ zm2 ∈ (⟨2, 0, 5, 0, 5, none, none⟩ : BBox ℚ).minz, zm2 ≤ zm) ∧
     (∀ zM ∈ (⟨2, 0, 1, 0, 2, none, none⟩ : BBox ℚ).maxz,
        ∀ zM2 ∈ (⟨2, 0, 5, 0, 5, none, none⟩ : BBox ℚ).maxz, zM ≤ zM2)) :=
  ⟨by decide, C10_bbox_invariants.1 (.pts [[0, 0], [1, 2]]) _ (by decide), by decide,
   C10_bbox_invariants.2 (⟨2, 0, 1, 0, 2, none, none⟩ : BBox ℚ) (.pts [[5, 5]]) _ (by decide)⟩

/-- C8 fails as stated: a non-empty list of MIXED dimensionality whose first
point is a 2-tuple constructs successfully (the init only checks the first
point's length, and `zip` silently truncates the 3-tuple). -/
theorem C8_counterexample :
    BBox_new (.pts ([[0, 0], [1, 1, 5]] : List (List ℚ))) =
      .ok ⟨2, 0, 1, 0, 1, none, none⟩ ∧
    ([[0, 0], [1, 1, 5]] : List (List ℚ)).map List.length = [2, 3] := by
  refine ⟨by decide, by decide⟩

/-- C8 amended: for a list of 2-tuples and 3-tuples, construction fails on
the empty list; on a non-empty list it branches on the FIRST point only —
with a 2-tuple first point it always succeeds (mixed lists included, the
third coordinates being silently ignored), with a 3-tuple first point it
succeeds exactly when every point is a 3-tuple. -/
theorem C8_amended {α : Type} [LinearOrderedField α] (l : List (List α))
    (hdim : ∀ p ∈ l, p.length = 2 ∨ p.length = 3) :
    exIsOk (BBox_new (PArg.pts l)) = true ↔
      ∃ p0 rest, l = p0 :: rest ∧ (p0.length = 2 ∨ ∀ p ∈ l, p.length = 3) := by
  cases l with
  | nil => simp [BBox_new, exIsOk]
  | cons p0 rest =>
    have hall2 : ∀ p ∈ p0 :: rest, 2 ≤ p.length := by
      intro p hp
      rcases hdim p hp with h | h <;> omega
    by_cases h2 : p0.length = 2
    · have hA : ((p0 :: rest).all fun p => 2 ≤ p.length) = true := by
        rw [List.all_eq_true]
        intro x hx
        simpa using hall2 x hx
      constructor
      · intro _
        exact ⟨p0, rest, rfl, Or.inl h2⟩
      · intro _
        simp [BBox_new, bboxFromPnts, h2, hA, exIsOk]
    · have h3 : p0.length = 3 := by
        rcases hdim p0 (List.mem_cons_self p0 rest) with h | h
        · omega
        · exact h
      by_cases hall3 : ∀ p ∈ p0 :: rest, p.length = 3
      · have hA : ((p0 :: rest).all fun p => 3 ≤ p.length) = true := by
          rw [List.all_eq_true]
          intro x hx
          simp [hall3 x hx]
        constructor
        · intro _
          exact ⟨p0, rest, rfl, Or.inr hall3⟩
        · intro _
          simp [BBox_new, bboxFromPnts, h2, h3, hA, exIsOk]
      · have hA : ((p0 :: rest).all fun p => 3 ≤ p.length) = false := by
          rw [List.all_eq_false]
          push_neg at hall3
          obtain ⟨p, hp, hlen⟩ := hall3
          refine ⟨p, hp, ?_⟩
          have : p.length = 2 := by
            rcases hdim p hp with h | h
            · exact h
            · omega
          simp [this]
        constructor
        · intro hok
          exfalso
          simp [BBox_new, bboxFromPnts, h2, h3, hA, exIsOk] at hok
        · rintro ⟨p0x, restx, heq, hc⟩
          exfalso
          injection heq with he1 he2
          subst he1
          subst he2
          rcases hc with hc2 | hc3
          · exact h2 hc2
          · exact hall3 hc3

theorem C8_amended_witness :
    (∀ p ∈ ([[0, 0], [1, 1]] : List (List ℚ)), p.length = 2 ∨ p.length = 3) ∧
    (exIsOk (BBox_new (PArg.pts ([[0, 0], [1, 1]] : List (List ℚ)))) = true ↔
      ∃ p0 rest, ([[0, 0], [1, 1]] : List (List ℚ)) = p0 :: rest ∧
        (p0.length = 2 ∨ ∀ p ∈ ([[0, 0], [1, 1]] : List (List ℚ)), p.length = 3)) :=
  ⟨by decide, C8_amended _ (by decide)⟩

theorem exMapS_ok_map {β γ : Type} {f : β → Except String γ} {g : β → γ}
    {l : List β} (h : ∀ x ∈ l, f x = .ok (g x)) : exMapS f l = .ok (l.map g) := by
  induction l with
  | nil => rfl
  | cons x xs ih =>
    simp [exMapS, h x (List.mem_cons_self x xs),
      ih (fun y hy => h y (List.mem_cons_of_mem x hy))]

theorem pointIn_eq_ok {α : Type} [LinearOrderedField α] {b : BBox α} {p : List α}
    (hd : b.dim = 2 ∨ b.dim = 3) (hp : p.length = b.dim) :
    pointIn b p = .ok (pointInB b p) := by
  rcases hd with h2 | h3
  · rw [h2] at hp
    obtain ⟨x, y, rfl⟩ := List.length_eq_two.mp hp
    simp [pointIn, pointInB, h2]
  · rw [h3] at hp
    obtain ⟨x, y, z, rfl⟩ := List.length_eq_three.mp hp
    simp [pointIn, pointInB, h3]

/-- C9 amended: with a single bare point OF THE BOX'S DIMENSIONALITY the
containment test returns one boolean (not a list); with a non-empty list of
points of the box's dimensionality it returns one boolean per point in
input order.  (A bare point of the other dimensionality, or an empty list,
raises instead — see the counterexample.) -/
theorem C9_amended {α : Type} [LinearOrderedField α] (b : BBox α)
    (hd : b.dim = 2 ∨ b.dim = 3) :
    (∀ p : List α, p.length = b.dim →
       BBox.inside b (.point p) = .ok (.one (pointInB b p))) ∧
    (∀ (p0 : List α) (rest : List (List α)), (∀ p ∈ p0 :: rest, p.length = b.dim) →
       BBox.inside b (.pts (p0 :: rest)) =
         .ok (.many ((p0 :: rest).map (pointInB b)))) := by
  constructor
  · intro p hp
    have hlen23 : p.length = 2 ∨ p.length = 3 := by
      rcases hd with h | h
      · exact Or.inl (by omega)
      · exact Or.inr (by omega)
    have hmap : exMapS (pointIn b) [p] = .ok ([p].map (pointInB b)) :=
      exMapS_ok_map (fun x hx => by
        rw [List.mem_singleton.mp hx]
        exact pointIn_eq_ok hd hp)
    simp [BBox.inside, BBox.insideCore, hlen23, hp, hmap]
    intro hne
    rcases hd with hh | hh
    · exact absurd hh hne
    · exact hh
  · intro p0 rest hlen
    have hp0 : p0.length = b.dim := hlen p0 (List.mem_cons_self p0 rest)
    have hmap : exMapS (pointIn b) (p0 :: rest) = .ok ((p0 :: rest).map (pointInB b)) :=
      exMapS_ok_map (fun x hx => pointIn_eq_ok hd (hlen x hx))
    simp [BBox.inside, BBox.insideCore, hp0, hmap]

/-- C9 fails as stated: a single bare point whose dimensionality differs
from the box's raises the dimension error instead of returning a
boolean. -/
theorem C9_counterexample :
    BBox_new (.pts ([[0, 0], [1, 1]] : List (List ℚ))) = .ok ⟨2, 0, 1, 0, 1, none, none⟩ ∧
    BBox.inside (⟨2, 0, 1, 0, 1, none, none⟩ : BBox ℚ) (.point [0, 0, 0]) =
      .error "dimension of pnts[0] not conform bbox." := by
  refine ⟨by decide, by decide⟩

theorem C9_amended_witness :
    ((⟨2, 0, 1, 0, 1, none, none⟩ : BBox ℚ).dim = 2 ∨
     (⟨2, 0, 1, 0, 1, none, none⟩ : BBox ℚ).dim = 3) ∧
    BBox.inside (⟨2, 0, 1, 0, 1, none, none⟩ : BBox ℚ) (.point [0, 0]) =
      .ok (.one (pointInB (⟨2, 0, 1, 0, 1, none, none⟩ : BBox ℚ) [0, 0])) ∧
    BBox.inside (⟨2, 0, 1, 0, 1, none, none⟩ : BBox ℚ) (.pts [[0, 0], [7, 0]]) =
      .ok (.many ([[0, 0], [7, 0]].map (pointInB (⟨2, 0, 1, 0, 1, none, none⟩ : BBox ℚ)))) :=
  ⟨by decide,
   (C9_amended (⟨2, 0, 1, 0, 1, none, none⟩ : BBox ℚ) (by decide)).1 [0, 0] (by decide),
   (C9_amended (⟨2, 0, 1, 0, 1, none, none⟩ : BBox ℚ) (by decide)).2 [0, 0] [[7, 0]] (by decide)⟩

/-!
Support lemmas for the round-trip claim: scanning over concatenations.
-/

theorem findTok_append {α : Type} (x : String) (A B : List (Tok α)) :
    findTok x (A ++ B) =
      match findTok x A with
      | some n => some n
      | none => (findTok x B).map (· + A.length) := by
  induction A with
  | nil => simp [findTok]
  | cons t ts ih =>
    by_cases h : tokIsStr t x
    · simp [findTok, h]
    · rw [List.cons_append,
        show findTok x (t :: (ts ++ B)) = (findTok x (ts ++ B)).map (· + 1) from by
          simp [findTok, h],
        show findTok x (t :: ts) = (findTok x ts).map (· + 1) from by
          simp [findTok, h],
        ih]
      cases hf : findTok x ts with
      | some n => simp
      | none =>
        cases hB : findTok x B with
        | none => simp
        | some m =>
          show some (m + ts.length + 1) = some (m + (t :: ts).length)
          rw [List.length_cons]
          congr 1

theorem markersFrom_append {α : Type} (kw : String) (A B : List (Tok α)) (n : Nat) :
    markersFrom kw (A ++ B) n = markersFrom kw A n ++ markersFrom kw B (n + A.length) := by
  induction A generalizing n with
  | nil => simp [markersFrom]
  | cons t ts ih =>
    have harith : n + 1 + ts.length = n + (t :: ts).length := by
      rw [List.length_cons]
      omega
    by_cases h : tokIsStr t kw
    · rw [List.cons_append,
        show markersFrom kw (t :: (ts ++ B)) n = n :: markersFrom kw (ts ++ B) (n + 1) from by
          simp [markersFrom, h],
        show markersFrom kw (t :: ts) n = n :: markersFrom kw ts (n + 1) from by
          simp [markersFrom, h],
        ih (n + 1), harith]
      simp
    · rw [List.cons_append,
        show markersFrom kw (t :: (ts ++ B)) n = markersFrom kw (ts ++ B) (n + 1) from by
          simp [markersFrom, h],
        show markersFrom kw (t :: ts) n = markersFrom kw ts (n + 1) from by
          simp [markersFrom, h],
        ih (n + 1), harith]

theorem noKwB_forall {kw : String} {ts : List (Tok ℝ)} (h : noKwB kw ts = true) :
    ∀ t ∈ ts, tokIsStr t kw = false := by
  intro t ht
  have := List.all_eq_true.mp h t ht
  simpa using this

theorem markersFrom_nil_of_noKw {kw : String} {ts : List (Tok ℝ)}
    (h : noKwB kw ts = true) : ∀ n, markersFrom kw ts n = [] := by
  induction ts with
  | nil => intro n; rfl
  | cons t ts ih =>
    intro n
    have ht := noKwB_forall h t (List.mem_cons_self t ts)
    have hrest : noKwB kw ts = true := by
      rw [noKwB, List.all_eq_true]
      intro x hx
      simpa using noKwB_forall h x (List.mem_cons_of_mem t hx)
    simp [markersFrom, ht, ih hrest]

theorem findTok_none_of_noKw {kw : String} {ts : List (Tok ℝ)}
    (h : noKwB kw ts = true) : findTok kw ts = none :=
  findTok_eq_none_iff.mpr (noKwB_forall h)

theorem noKwB_append {kw : String} {A B : List (Tok ℝ)} (hA : noKwB kw A = true)
    (hB : noKwB kw B = true) : noKwB kw (A ++ B) = true := by
  rw [noKwB, List.all_eq_true]
  intro t ht
  rcases List.mem_append.mp ht with h1 | h1
  · simpa using noKwB_forall hA t h1
  · simpa using noKwB_forall hB t h1

theorem indexFrom_shift {α : Type} (x : String) (A B : List (Tok α)) (i : Nat) :
    indexFrom (A ++ B) x (A.length + i) = (indexFrom B x i).map (· + A.length) := by
  unfold indexFrom
  rw [List.drop_append]
  cases findTok x (B.drop i) with
  | none => rfl
  | some n =>
    show some (n + (A.length + i)) = some (n + i + A.length)
    congr 1
    omega

theorem indexFrom_extendR {α : Type} {A : List (Tok α)} {x : String} {i j : Nat}
    (B : List (Tok α)) (h : indexFrom A x i = some j) :
    indexFrom (A ++ B) x i = some j := by
  unfold indexFrom at h ⊢
  rw [List.drop_append_eq_append_drop, findTok_append]
  cases hf : findTok x (A.drop i) with
  | none => rw [hf] at h; cases h
  | some n =>
    rw [hf] at h
    simpa using h

theorem getAt_shift {α : Type} (A B : List (Tok α)) (k : Nat) :
    (A ++ B)[A.length + k]? = B[k]? := by
  rw [List.getElem?_append_right (by omega)]
  congr 1
  omega

theorem getAt_left {α : Type} (A B : List (Tok α)) (k : Nat) (h : k < A.length) :
    (A ++ B)[k]? = A[k]? :=
  List.getElem?_append_left h

theorem numAt_shift (A B : List (Tok ℝ)) (k : Nat) :
    numAt (A ++ B) (A.length + k) = numAt B k := by
  unfold numAt
  rw [getAt_shift]

theorem layerAt_shift (A B : List (Tok ℝ)) (k : Nat) :
    layerAt (A ++ B) (A.length + k) = layerAt B k := by
  unfold layerAt
  rw [getAt_shift]

theorem numAt_extendR {A : List (Tok ℝ)} {k : Nat} (B : List (Tok ℝ))
    (h : k < A.length) : numAt (A ++ B) k = numAt A k := by
  unfold numAt
  rw [getAt_left _ _ _ h]

theorem layerAt_extendR {A : List (Tok ℝ)} {k : Nat} (B : List (Tok ℝ))
    (h : k < A.length) : layerAt (A ++ B) k = layerAt A k := by
  unfold layerAt
  rw [getAt_left _ _ _ h]

theorem sLineBlk_length (e : ELine) : (sLineBlk e).length = 17 := by
  simp [sLineBlk]

theorem sArcBlk_length (e : EArc) : (sArcBlk e).length = 16 := by
  simp [sArcBlk]

theorem backStrip_cons {c : Char} {l : List Char} (hc : isPyWS c = false) :
    backStrip (c :: l) = c :: backStrip l := by
  unfold backStrip
  rw [List.reverse_cons, List.dropWhile_append]
  by_cases he : (l.reverse.dropWhile isPyWS).isEmpty
  · rw [if_pos he]
    have h1 : List.dropWhile isPyWS [c] = [c] := by simp [List.dropWhile_cons, hc]
    have h2 : l.reverse.dropWhile isPyWS = [] := List.isEmpty_iff.mp he
    rw [h1, h2]
    simp
  · rw [if_neg he, List.reverse_append]
    simp

theorem pyStrip_append_head (pre suf : String) (c : Char) (r : List Char)
    (hpre : pre.data = c :: r) (hc : isPyWS c = false) :
    (pyStrip (pre ++ suf)).data = c :: backStrip (r ++ suf.data) := by
  have hdata : (pre ++ suf).data = c :: (r ++ suf.data) := by
    rw [String.data_append, hpre]
    rfl
  rw [pyStrip, hdata]
  rw [show frontStrip (c :: (r ++ suf.data)) = c :: (r ++ suf.data) from by
    simp [frontStrip, List.dropWhile_cons, hc]]
  rw [backStrip_cons hc]

theorem tokIsStr_strip_prefix_ne (pre suf kw : String) (c : Char) (r : List Char)
    (hpre : pre.data = c :: r) (hc : isPyWS c = false)
    (hkw : kw.data.head? ≠ some c) :
    tokIsStr (Tok.s (pyStrip (pre ++ suf)) : Tok ℝ) kw = false := by
  have hm := pyStrip_append_head pre suf c r hpre hc
  have hne : pyStrip (pre ++ suf) ≠ kw := by
    intro he
    rw [he] at hm
    exact hkw (by rw [hm]; rfl)
  simpa [tokIsStr] using hne

theorem sBlocks_cons (e : Entity) (es : List Entity) :
    sBlocks (e :: es) = sBlk e ++ sBlocks es := by
  simp [sBlocks]

theorem noKw_sBlocks {kw : String} {es : List Entity}
    (hprim : es.all Entity.isPrim = true)
    (hl : ∀ e : ELine, noKwB kw (sLineBlk e) = true)
    (ha : ∀ e : EArc, noKwB kw (sArcBlk e) = true) :
    noKwB kw (sBlocks es) = true := by
  induction es with
  | nil => rfl
  | cons e es ih =>
    rw [sBlocks_cons]
    rw [List.all_cons] at hprim
    obtain ⟨hp, hps⟩ := Bool.and_eq_true_iff.mp hprim
    refine noKwB_append ?_ (ih hps)
    cases e with
    | line el => exact hl el
    | arc ea => exact ha ea
    | contour s i l => cases hp

theorem noKw_sLineBlk_ENDSEC (e : ELine) : noKwB "ENDSEC" (sLineBlk e) = true := by
  simp [noKwB, sLineBlk, tokIsStr]

theorem noKw_sLineBlk_CIRCLE (e : ELine) : noKwB "CIRCLE" (sLineBlk e) = true := by
  simp [noKwB, sLineBlk, tokIsStr]

theorem noKw_sLineBlk_POLYLINE (e : ELine) : noKwB "POLYLINE" (sLineBlk e) = true := by
  simp [noKwB, sLineBlk, tokIsStr]

theorem noKw_sArcBlk_ENDSEC (e : EArc) : noKwB "ENDSEC" (sArcBlk e) = true := by
  simp [noKwB, sArcBlk, tokIsStr]

theorem noKw_sArcBlk_CIRCLE (e : EArc) : noKwB "CIRCLE" (sArcBlk e) = true := by
  simp [noKwB, sArcBlk, tokIsStr]

theorem noKw_sArcBlk_POLYLINE (e : EArc) : noKwB "POLYLINE" (sArcBlk e) = true := by
  simp [noKwB, sArcBlk, tokIsStr]

theorem markersFrom_sLineBlk_LINE (e : ELine) (n : Nat) :
    markersFrom "LINE" (sLineBlk e) n = [n + 1] := by
  simp [sLineBlk, markersFrom, tokIsStr]

theorem markersFrom_sLineBlk_ARC (e : ELine) (n : Nat) :
    markersFrom "ARC" (sLineBlk e) n = [] := by
  simp [sLineBlk, markersFrom, tokIsStr]

theorem markersFrom_sArcBlk_ARC (e : EArc) (n : Nat) :
    markersFrom "ARC" (sArcBlk e) n = [n + 1] := by
  simp [sArcBlk, markersFrom, tokIsStr]

theorem markersFrom_sArcBlk_LINE (e : EArc) (n : Nat) :
    markersFrom "LINE" (sArcBlk e) n = [] := by
  simp [sArcBlk, markersFrom, tokIsStr]

theorem lineAt_at_block (P R : List (Tok ℝ)) (e : ELine) :
    lineAt (P ++ (sLineBlk e ++ R)) (P.length + 1) =
      .ok (.line e.x1 e.y1 e.x2 e.y2 (P.length + 1) "snijlijnen") := by
  have h8 : indexFrom (sLineBlk e ++ R) "8" 1 = some 2 :=
    indexFrom_extendR R (by simp [sLineBlk, indexFrom, findTok, tokIsStr])
  have hl : layerAt (sLineBlk e ++ R) 3 = some "snijlijnen" := by
    rw [layerAt_extendR R (by simp [sLineBlk])]
    simp [sLineBlk, layerAt, layerVal]
  have h10 : indexFrom (sLineBlk e ++ R) "10" 3 = some 4 :=
    indexFrom_extendR R (by simp [sLineBlk, indexFrom, findTok, tokIsStr])
  have hx1 : numAt (sLineBlk e ++ R) 5 = some e.x1 := by
    rw [numAt_extendR R (by simp [sLineBlk])]
    simp [sLineBlk, numAt, getNumTok]
  have h20 : indexFrom (sLineBlk e ++ R) "20" 5 = some 6 :=
    indexFrom_extendR R (by simp [sLineBlk, indexFrom, findTok, tokIsStr])
  have hy1 : numAt (sLineBlk e ++ R) 7 = some e.y1 := by
    rw [numAt_extendR R (by simp [sLineBlk])]
    simp [sLineBlk, numAt, getNumTok]
  have h11 : indexFrom (sLineBlk e ++ R) "11" 7 = some 10 :=
    indexFrom_extendR R (by simp [sLineBlk, indexFrom, findTok, tokIsStr])
  have hx2 : numAt (sLineBlk e ++ R) 11 = some e.x2 := by
    rw [numAt_extendR R (by simp [sLineBlk])]
    simp [sLineBlk, numAt, getNumTok]
  have h21 : indexFrom (sLineBlk e ++ R) "21" 11 = some 12 :=
    indexFrom_extendR R (by simp [sLineBlk, indexFrom, findTok, tokIsStr])
  have hy2 : numAt (sLineBlk e ++ R) 13 = some e.y2 := by
    rw [numAt_extendR R (by simp [sLineBlk])]
    simp [sLineBlk, numAt, getNumTok]
  simp only [lineAt, indexFrom_shift, layerAt_shift, numAt_shift, h8, hl, h10, hx1,
    h20, hy1, h11, hx2, h21, hy2, Option.map_some, Option.map_some', Nat.add_comm,
    Nat.add_assoc, Nat.add_left_comm, Nat.reduceAdd]

theorem arcAt_at_block (P R : List (Tok ℝ)) (e : EArc) :
    arcAt (P ++ (sArcBlk e ++ R)) (P.length + 1) =
      .ok (.arc (if e.ccw then e else e.flip).cx (if e.ccw then e else e.flip).cy
        (if e.ccw then e else e.flip).R (degOfRad (if e.ccw then e else e.flip).a0)
        (normEnd (degOfRad (if e.ccw then e else e.flip).a0)
          (degOfRad (if e.ccw then e else e.flip).a1)) (P.length + 1) "snijlijnen") := by
  have h8 : indexFrom (sArcBlk e ++ R) "8" 1 = some 2 :=
    indexFrom_extendR R (by simp [sArcBlk, indexFrom, findTok, tokIsStr])
  have hl : layerAt (sArcBlk e ++ R) 3 = some "snijlijnen" := by
    rw [layerAt_extendR R (by simp [sArcBlk])]
    simp [sArcBlk, layerAt, layerVal]
  have h10 : indexFrom (sArcBlk e ++ R) "10" 3 = some 4 :=
    indexFrom_extendR R (by simp [sArcBlk, indexFrom, findTok, tokIsStr])
  have hcx : numAt (sArcBlk e ++ R) 5 = some (if e.ccw then e else e.flip).cx := by
    rw [numAt_extendR R (by simp [sArcBlk])]
    simp [sArcBlk, numAt, getNumTok]
  have h20 : indexFrom (sArcBlk e ++ R) "20" 5 = some 6 :=
    indexFrom_extendR R (by simp [sArcBlk, indexFrom, findTok, tokIsStr])
  have hcy : numAt (sArcBlk e ++ R) 7 = some (if e.ccw then e else e.flip).cy := by
    rw [numAt_extendR R (by simp [sArcBlk])]
    simp [sArcBlk, numAt, getNumTok]
  have h40 : indexFrom (sArcBlk e ++ R) "40" 7 = some 10 :=
    indexFrom_extendR R (by simp [sArcBlk, indexFrom, findTok, tokIsStr])
  have hr : numAt (sArcBlk e ++ R) 11 = some (if e.ccw then e else e.flip).R := by
    rw [numAt_extendR R (by simp [sArcBlk])]
    simp [sArcBlk, numAt, getNumTok]
  have h50 : indexFrom (sArcBlk e ++ R) "50" 11 = some 12 :=
    indexFrom_extendR R (by simp [sArcBlk, indexFrom, findTok, tokIsStr])
  have hd1 : numAt (sArcBlk e ++ R) 13 = some (degOfRad (if e.ccw then e else e.flip).a0) := by
    rw [numAt_extendR R (by simp [sArcBlk])]
    simp [sArcBlk, numAt, getNumTok]
  have h51 : indexFrom (sArcBlk e ++ R) "51" 13 = some 14 :=
    indexFrom_extendR R (by simp [sArcBlk, indexFrom, findTok, tokIsStr])
  have hd2 : numAt (sArcBlk e ++ R) 15 = some (degOfRad (if e.ccw then e else e.flip).a1) := by
    rw [numAt_extendR R (by simp [sArcBlk])]
    simp [sArcBlk, numAt, getNumTok]
  simp only [arcAt, indexFrom_shift, layerAt_shift, numAt_shift, h8, hl, h10, hcx,
    h20, hcy, h40, hr, h50, hd1, h51, hd2, Option.map_some, Option.map_some',
    Nat.add_comm, Nat.add_assoc, Nat.add_left_comm, Nat.reduceAdd]

theorem getLines_go (es : List Entity) : ∀ (P T : List (Tok ℝ)),
    es.all Entity.isPrim = true → noKwB "LINE" T = true →
    exMapM (lineAt (P ++ (sBlocks es ++ T)))
        (markersFrom "LINE" (sBlocks es ++ T) P.length) =
      .ok (expectedLines P.length es) := by
  induction es with
  | nil =>
    intro P T hprim hT
    rw [show sBlocks [] = [] from rfl, List.nil_append,
      markersFrom_nil_of_noKw hT P.length]
    rfl
  | cons e es ih =>
    intro P T hprim hT
    rw [List.all_cons] at hprim
    obtain ⟨hp, hps⟩ := Bool.and_eq_true_iff.mp hprim
    cases e with
    | contour s i l => cases hp
    | line el =>
      rw [sBlocks_cons, show sBlk (Entity.line el) = sLineBlk el from rfl,
        List.append_assoc,
        markersFrom_append "LINE" (sLineBlk el) (sBlocks es ++ T) P.length,
        markersFrom_sLineBlk_LINE, sLineBlk_length, List.singleton_append]
      have ihx := ih (P ++ sLineBlk el) T hps hT
      rw [List.append_assoc, List.length_append, sLineBlk_length] at ihx
      simp only [exMapM, lineAt_at_block, ihx, expectedLines]
    | arc ea =>
      rw [sBlocks_cons, show sBlk (Entity.arc ea) = sArcBlk ea from rfl,
        List.append_assoc,
        markersFrom_append "LINE" (sArcBlk ea) (sBlocks es ++ T) P.length,
        markersFrom_sArcBlk_LINE, sArcBlk_length, List.nil_append]
      have ihx := ih (P ++ sArcBlk ea) T hps hT
      rw [List.append_assoc, List.length_append, sArcBlk_length] at ihx
      rw [ihx]
      rfl

theorem getArcs_go (es : List Entity) : ∀ (P T : List (Tok ℝ)),
    es.all Entity.isPrim = true → noKwB "ARC" T = true →
    exMapM (arcAt (P ++ (sBlocks es ++ T)))
        (markersFrom "ARC" (sBlocks es ++ T) P.length) =
      .ok (expectedArcs P.length es) := by
  induction es with
  | nil =>
    intro P T hprim hT
    rw [show sBlocks [] = [] from rfl, List.nil_append,
      markersFrom_nil_of_noKw hT P.length]
    rfl
  | cons e es ih =>
    intro P T hprim hT
    rw [List.all_cons] at hprim
    obtain ⟨hp, hps⟩ := Bool.and_eq_true_iff.mp hprim
    cases e with
    | contour s i l => cases hp
    | line el =>
      rw [sBlocks_cons, show sBlk (Entity.line el) = sLineBlk el from rfl,
        List.append_assoc,
        markersFrom_append "ARC" (sLineBlk el) (sBlocks es ++ T) P.length,
        markersFrom_sLineBlk_ARC, sLineBlk_length, List.nil_append]
      have ihx := ih (P ++ sLineBlk el) T hps hT
      rw [List.append_assoc, List.length_append, sLineBlk_length] at ihx
      rw [ihx]
      rfl
    | arc ea =>
      rw [sBlocks_cons, show sBlk (Entity.arc ea) = sArcBlk ea from rfl,
        List.append_assoc,
        markersFrom_append "ARC" (sArcBlk ea) (sBlocks es ++ T) P.length,
        markersFrom_sArcBlk_ARC, sArcBlk_length, List.singleton_append]
      have ihx := ih (P ++ sArcBlk ea) T hps hT
      rw [List.append_assoc, List.length_append, sArcBlk_length] at ihx
      simp only [exMapM, arcAt_at_block, ihx, expectedArcs]

theorem strip_entity (e : Entity) (hp : Entity.isPrim e = true) :
    (entityToks e).map stripTok = sBlk e := by
  cases e with
  | contour s i l => cases hp
  | line el =>
    simp [entityToks, _dxfline, sBlk, sLineBlk, stripTok,
      show pyStrip "  0" = "0" from by decide,
      show pyStrip "LINE" = "LINE" from by decide,
      show pyStrip "  8" = "8" from by decide,
      show pyStrip "snijlijnen" = "snijlijnen" from by decide,
      show pyStrip " 10" = "10" from by decide,
      show pyStrip " 20" = "20" from by decide,
      show pyStrip " 30" = "30" from by decide,
      show pyStrip " 11" = "11" from by decide,
      show pyStrip " 21" = "21" from by decide,
      show pyStrip " 31" = "31" from by decide,
      show pyStrip "" = "" from by decide]
  | arc ea =>
    simp [entityToks, _dxfarc, sBlk, sArcBlk, stripTok,
      show pyStrip "  0" = "0" from by decide,
      show pyStrip "ARC" = "ARC" from by decide,
      show pyStrip "  8" = "8" from by decide,
      show pyStrip "snijlijnen" = "snijlijnen" from by decide,
      show pyStrip " 10" = "10" from by decide,
      show pyStrip " 20" = "20" from by decide,
      show pyStrip " 30" = "30" from by decide,
      show pyStrip " 40" = "40" from by decide,
      show pyStrip " 50" = "50" from by decide,
      show pyStrip " 51" = "51" from by decide]

theorem stripped_writer (p t : String) (es : List Entity)
    (hprim : es.all Entity.isPrim = true) :
    (writerToks p t es).map stripTok = sHeader p t es.length ++ (sBlocks es ++ sFooter) := by
  have hmap : ∀ e ∈ es, (List.map stripTok ∘ entityToks) e = sBlk e := by
    intro e he
    exact strip_entity e (List.all_eq_true.mp hprim e he)
  simp only [writerToks, List.map_append, List.map_cons, List.map_nil,
    List.map_flatten, List.map_map, List.map_congr_left hmap]
  simp [sHeader, sFooter, sBlocks, stripTok,
    show pyStrip "999" = "999" from by decide,
    show pyStrip "  0" = "0" from by decide,
    show pyStrip "SECTION" = "SECTION" from by decide,
    show pyStrip "  2" = "2" from by decide,
    show pyStrip "ENTITIES" = "ENTITIES" from by decide,
    show pyStrip "ENDSEC" = "ENDSEC" from by decide,
    show pyStrip "EOF" = "EOF" from by decide,
    show pyStrip "" = "" from by decide]

theorem sHeader_length (p t : String) (n : Nat) : (sHeader p t n).length = 10 := by
  simp [sHeader]

theorem findTok_ENTITIES_header (p t : String) (n : Nat) (X : List (Tok ℝ)) :
    findTok "ENTITIES" (sHeader p t n ++ X) = some 9 := by
  have hgen : pyStrip ("DXF file generated by " ++ p) ≠ "ENTITIES" := by
    have h := tokIsStr_strip_prefix_ne "DXF file generated by " p "ENTITIES" 'D'
      ("XF file generated by ".data) (by decide) (by decide) (by decide)
    simpa [tokIsStr] using h
  have hconv : pyStrip ("This conversion was started on " ++ t) ≠ "ENTITIES" := by
    have h := tokIsStr_strip_prefix_ne "This conversion was started on " t "ENTITIES" 'T'
      ("his conversion was started on ".data) (by decide) (by decide) (by decide)
    simpa [tokIsStr] using h
  have hcntdata : ("This file contains " ++ toString n).data =
      'T' :: ("his file contains ".data ++ (toString n).data) := by
    rw [String.data_append,
      show "This file contains ".data = 'T' :: "his file contains ".data from by decide]
    rfl
  have hcnt : pyStrip ("This file contains " ++ toString n ++ " entities.") ≠ "ENTITIES" := by
    have h := tokIsStr_strip_prefix_ne ("This file contains " ++ toString n) " entities."
      "ENTITIES" 'T' ("his file contains ".data ++ (toString n).data)
      hcntdata (by decide) (by decide)
    simpa [tokIsStr] using h
  simp [sHeader, findTok, tokIsStr, hgen, hconv, hcnt]

theorem entSlice_writer (p t : String) (es : List Entity)
    (hprim : es.all Entity.isPrim = true) :
    entSlice ((writerToks p t es).map stripTok) =
      .ok (sBlocks es ++ [Tok.s "0"]) := by
  rw [stripped_writer p t es hprim]
  have hE : indexFrom (sHeader p t es.length ++ (sBlocks es ++ sFooter)) "ENTITIES" 0 =
      some 9 := by
    unfold indexFrom
    rw [List.drop_zero, findTok_ENTITIES_header]
    rfl
  have hnoB : noKwB "ENDSEC" (sBlocks es) = true :=
    noKw_sBlocks hprim noKw_sLineBlk_ENDSEC noKw_sArcBlk_ENDSEC
  have hD : indexFrom (sHeader p t es.length ++ (sBlocks es ++ sFooter)) "ENDSEC" 10 =
      some (1 + (sBlocks es).length + ((sHeader p t es.length).length + 0)) := by
    unfold indexFrom
    rw [show (10 : Nat) = (sHeader p t es.length).length + 0 from by rw [sHeader_length],
      List.drop_append, List.drop_zero, findTok_append, findTok_none_of_noKw hnoB,
      show findTok "ENDSEC" sFooter = some 1 from by decide]
    rfl
  rw [show 1 + (sBlocks es).length + ((sHeader p t es.length).length + 0) =
      (sHeader p t es.length).length + ((sBlocks es).length + 1) from by
    rw [sHeader_length]; omega] at hD
  simp only [entSlice, hE, Nat.reduceAdd, hD]
  rw [List.take_append,
    show (10 : Nat) = (sHeader p t es.length).length + 0 from by rw [sHeader_length],
    List.drop_append, List.drop_zero,
    List.take_append,
    show List.take 1 sFooter = [Tok.s "0"] from by decide]

theorem decodeSlice_writer (es : List Entity) (hprim : es.all Entity.isPrim = true) :
    decodeSlice (sBlocks es ++ [Tok.s "0"]) =
      .ok (List.insertionSort entLe (expectedLines 0 es ++ expectedArcs 0 es)) := by
  have hlines : _get_lines (sBlocks es ++ [Tok.s "0"]) = .ok (expectedLines 0 es) := by
    have h := getLines_go es [] [Tok.s "0"] hprim (by decide)
    simpa [markersOf, _get_lines] using h
  have harcs : _get_arcs (sBlocks es ++ [Tok.s "0"]) = .ok (expectedArcs 0 es) := by
    have h := getArcs_go es [] [Tok.s "0"] hprim (by decide)
    simpa [markersOf, _get_arcs] using h
  have hcirc : _get_circles (sBlocks es ++ [Tok.s "0"]) = .ok [] := by
    unfold _get_circles markersOf
    rw [markersFrom_nil_of_noKw (noKwB_append
      (noKw_sBlocks hprim noKw_sLineBlk_CIRCLE noKw_sArcBlk_CIRCLE) (by decide))]
    rfl
  have hpoly : _get_polylines (sBlocks es ++ [Tok.s "0"]) = .ok [] := by
    unfold _get_polylines markersOf
    rw [markersFrom_nil_of_noKw (noKwB_append
      (noKw_sBlocks hprim noKw_sLineBlk_POLYLINE noKw_sArcBlk_POLYLINE) (by decide))]
    rfl
  simp only [decodeSlice, hlines, harcs, hcirc, hpoly, List.append_nil]

theorem perm_expected (es : List Entity) : ∀ pos,
    List.Perm (expectedLines pos es ++ expectedArcs pos es) (expectedOut pos es) := by
  induction es with
  | nil => intro pos; simp [expectedLines, expectedArcs, expectedOut]
  | cons e es ih =>
    intro pos
    cases e with
    | line el =>
      simp only [expectedLines, expectedArcs, expectedOut, List.cons_append]
      exact (ih (pos + 17)).cons _
    | arc ea =>
      simp only [expectedLines, expectedArcs, expectedOut]
      exact List.Perm.trans List.perm_middle ((ih (pos + 16)).cons _)
    | contour s i l =>
      simp only [expectedLines, expectedArcs, expectedOut]
      exact ih pos

theorem expectedOut_lb (es : List Entity) : ∀ pos, ∀ e ∈ expectedOut pos es,
    pos < RawEnt.index e := by
  induction es with
  | nil => intro pos e he; simp [expectedOut] at he
  | cons e0 es ih =>
    intro pos e he
    cases e0 with
    | line el =>
      rw [expectedOut] at he
      rcases List.mem_cons.mp he with h1 | h2
      · rw [h1]
        simp [RawEnt.index]
      · have := ih (pos + 17) e h2
        omega
    | arc ea =>
      rw [expectedOut] at he
      rcases List.mem_cons.mp he with h1 | h2
      · rw [h1]
        simp [RawEnt.index]
      · have := ih (pos + 16) e h2
        omega
    | contour s i l =>
      rw [expectedOut] at he
      exact ih pos e he

theorem expectedOut_sorted_lt (es : List Entity) : ∀ pos,
    (expectedOut pos es).Pairwise entLt := by
  induction es with
  | nil => intro pos; simp [expectedOut]
  | cons e0 es ih =>
    intro pos
    cases e0 with
    | line el =>
      rw [expectedOut]
      refine List.Pairwise.cons ?_ (ih (pos + 17))
      intro b hb
      have h2 := expectedOut_lb es (pos + 17) b hb
      have h3 : RawEnt.index
          (RawEnt.line el.x1 el.y1 el.x2 el.y2 (pos + 1) "snijlijnen" : RawEnt ℝ) =
          pos + 1 := rfl
      simp only [entLt, h3]
      omega
    | arc ea =>
      rw [expectedOut]
      refine List.Pairwise.cons ?_ (ih (pos + 16))
      intro b hb
      have h2 := expectedOut_lb es (pos + 16) b hb
      have h3 : RawEnt.index
          (RawEnt.arc (if ea.ccw then ea else ea.flip).cx (if ea.ccw then ea else ea.flip).cy
            (if ea.ccw then ea else ea.flip).R (degOfRad (if ea.ccw then ea else ea.flip).a0)
            (normEnd (degOfRad (if ea.ccw then ea else ea.flip).a0)
              (degOfRad (if ea.ccw then ea else ea.flip).a1)) (pos + 1) "snijlijnen" : RawEnt ℝ) =
          pos + 1 := rfl
      simp only [entLt, h3]
      omega
    | contour s i l =>
      rw [expectedOut]
      exact ih pos

theorem sort_eq_expected (es : List Entity) :
    List.insertionSort entLe (expectedLines 0 es ++ expectedArcs 0 es) =
      expectedOut 0 es := by
  have hperm : List.Perm
      (List.insertionSort entLe (expectedLines 0 es ++ expectedArcs 0 es))
      (expectedOut 0 es) :=
    (List.perm_insertionSort entLe _).trans (perm_expected es 0)
  have hle : (List.insertionSort entLe (expectedLines 0 es ++ expectedArcs 0 es)).Pairwise
      entLe := List.sorted_insertionSort entLe _
  have hne : (List.insertionSort entLe (expectedLines 0 es ++ expectedArcs 0 es)).Pairwise
      (fun a b => RawEnt.index a ≠ RawEnt.index b) := by
    refine (hperm.pairwise_iff ?_).mpr ?_
    · intro a b h
      exact h.symm
    · exact (expectedOut_sorted_lt es 0).imp (fun h => Nat.ne_of_lt h)
  have hlt : (List.insertionSort entLe (expectedLines 0 es ++ expectedArcs 0 es)).Pairwise
      entLt := by
    refine (hle.and hne).imp ?_
    intro a b hab
    exact Nat.lt_of_le_of_ne hab.1 hab.2
  exact List.eq_of_perm_of_sorted hperm hlt (expectedOut_sorted_lt es 0)

theorem roundTrip (p t : String) (es : List Entity)
    (hprim : es.all Entity.isPrim = true) :
    reader (writerToks p t es) = .ok (expectedOut 0 es) := by
  simp only [reader, decode, entSlice_writer p t es hprim,
    decodeSlice_writer es hprim, sort_eq_expected es]

/-- C3 amended: for every list of Line and Arc entities (no contours),
decoding the writer's output succeeds and returns `expectedOut`: every
entity in input order with its layer forced to the fixed output layer
`snijlijnen`; a Line's endpoints round-trip exactly; an Arc is first
ccw-normalized by the writer's flip, and its angles round-trip exactly
except that the reader adds a full turn to the end angle when the written
end angle is smaller than the written start angle (so the decoded end angle
can exceed the ccw-normalized original's by 2π — see the counterexample).
Over the exact-arithmetic model, equality is exact, hence within any
positive tolerance. -/
theorem C3_amended (p t : String) (es : List Entity)
    (hprim : es.all Entity.isPrim = true) :
    reader (writerToks p t es) = .ok (expectedOut 0 es) :=
  roundTrip p t es hprim

theorem C3_amended_witness :
    ([Entity.line ⟨1, 2, 3, 4, 0, "lay"⟩].all Entity.isPrim = true) ∧
    reader (writerToks "prog" "ts" [Entity.line ⟨1, 2, 3, 4, 0, "lay"⟩]) =
      .ok (expectedOut 0 [Entity.line ⟨1, 2, 3, 4, 0, "lay"⟩]) :=
  ⟨rfl, C3_amended "prog" "ts" [Entity.line ⟨1, 2, 3, 4, 0, "lay"⟩] rfl⟩

/-- C3 fails as stated: a clockwise quarter arc (ccw = false, angles 0 and
π/2) is flipped by the writer to the ccw sweep (π/2, 0) and written as 90
and 0 degrees; the reader then adds a full turn to the end angle (0 < 90),
so the decoded end angle in radians is 2π, not the ccw-normalized
original's 0 — a difference of 2π, far above the claimed 1e-9 tolerance. -/
theorem C3_counterexample :
    reader (writerToks "prog" "ts"
        [Entity.arc ⟨0, 0, 1, 0, Real.pi / 2, false, 0, "orig"⟩]) =
      .ok [RawEnt.arc 0 0 1 90 360 1 "snijlijnen"] ∧
    radOfDeg 360 = 2 * Real.pi ∧
    (EArc.flip ⟨0, 0, 1, 0, Real.pi / 2, false, 0, "orig"⟩).a1 = 0 ∧
    ¬ |radOfDeg 360 - (EArc.flip ⟨0, 0, 1, 0, Real.pi / 2, false, 0, "orig"⟩).a1| ≤ 1e-9 := by
  have hpi := Real.pi_pos
  have hflip : EArc.flip ⟨0, 0, 1, 0, Real.pi / 2, false, 0, "orig"⟩ =
      ⟨0, 0, 1, Real.pi / 2, 0, true, 0, "orig"⟩ := rfl
  have hpi3 := Real.pi_gt_three
  refine ⟨?_, ?_, rfl, ?_⟩
  · rw [roundTrip "prog" "ts"
      [Entity.arc ⟨0, 0, 1, 0, Real.pi / 2, false, 0, "orig"⟩] rfl]
    have hdeg90 : degOfRad (Real.pi / 2) = 90 := by
      rw [degOfRad, div_eq_iff Real.pi_ne_zero]
      ring
    have hdeg0 : degOfRad 0 = 0 := by
      rw [degOfRad]
      ring
    have hexp : expectedOut 0 [Entity.arc ⟨0, 0, 1, 0, Real.pi / 2, false, 0, "orig"⟩] =
        [RawEnt.arc 0 0 1 90 360 1 "snijlijnen"] := by
      rw [expectedOut, expectedOut]
      simp only [Bool.false_eq_true, if_false, hflip]
      rw [hdeg90, hdeg0, show normEnd (90 : ℝ) 0 = 360 from by rw [normEnd]; norm_num]
    rw [hexp]
  · rw [radOfDeg]
    ring
  · rw [hflip]
    rw [show (⟨0, 0, 1, Real.pi / 2, 0, true, 0, "orig"⟩ : EArc).a1 = 0 from rfl]
    rw [show radOfDeg 360 - 0 = 2 * Real.pi from by rw [radOfDeg]; ring]
    rw [abs_of_pos (by nlinarith)]
    intro hle
    nlinarith
